import Mathlib

/-!
Verification of the faceblock effect engine and region/interaction model.

The definitions below are a shallow embedding of the JavaScript sources:
  * `src/js/effects.js`            — the ten pixel effects and the dispatcher
  * `src/js/canvas-utils.js`       — `cloneCanvas`
  * processor.js (in `src/unnamed/part_003`) — `processImage`
  * app.js (in `src/unnamed/part_002`)       — face list mutation, undo/redo,
    canvas eviction, manual region creation
  * ui.js (revision bundled in `src/README.md`) — the pointer-up move/delete
    gesture (`handlePointerUp`, `isOutsideCanvas`)

Modelling conventions:
  * JavaScript numbers are modelled by `ℚ`; `Math.round x` is `⌊x + 1/2⌋`
    (exact for the values exercised here), `Math.floor` is `Int.floor`.
  * A canvas is a width, a height and a row-major list of RGBA pixels.
    A drawing primitive touches pixel `(i, j)` iff the pixel centre
    `(i + 1/2, j + 1/2)` lies in the primitive's region (hard-edge fill,
    no antialiasing).
  * `Math.random()` is modelled by an explicit stream of rationals threaded
    through the effect functions; an exhausted stream yields `0`.
  * Browser primitives whose output is not computed by the repository's own
    code (CSS `blur()` filter sampling, smoothed `drawImage` downscale, glyph
    rasterisation for `fillText`, path filling for the landmark silhouette,
    `Math.cos`/`Math.sin`/`Math.sqrt`/`Math.PI`) are oracles collected in an
    environment record `Env`; they are fixed deterministic functions.
-/

/-- JavaScript `Math.round`: round half toward positive infinity. -/
def jsRound (q : ℚ) : ℤ := ⌊q + 1/2⌋

/-- RGBA pixel with byte channels. -/
structure Pixel where
  r : ℕ
  g : ℕ
  b : ℕ
  a : ℕ
deriving DecidableEq

instance : Inhabited Pixel := ⟨⟨0, 0, 0, 0⟩⟩

/-- A rendering surface: dimensions plus a row-major pixel list. -/
structure Canvas where
  width : ℕ
  height : ℕ
  data : List Pixel
deriving DecidableEq

/-- Read pixel `(i, j)`; out-of-range reads return transparent black. -/
def getPixel (c : Canvas) (i j : ℕ) : Pixel :=
  c.data.getD (j * c.width + i) default

/-- `cloneCanvas` (canvas-utils.js): a same-size canvas holding the same
pixels (`drawImage(source, 0, 0)` onto a fresh canvas of equal size). -/
def cloneCanvas (c : Canvas) : Canvas :=
  { width := c.width, height := c.height, data := c.data }

/-- Map a function over a pixel list together with the running index. -/
def mapIdxGo (f : ℕ → Pixel → Pixel) : ℕ → List Pixel → List Pixel
  | _, [] => []
  | n, p :: t => f n p :: mapIdxGo f (n + 1) t

/-- Rewrite the pixels of `c` whose coordinates satisfy `pred`. -/
def mapPixelsWhere (c : Canvas) (pred : ℕ → ℕ → Bool)
    (f : ℕ → ℕ → Pixel → Pixel) : Canvas :=
  { c with
      data := mapIdxGo
        (fun idx p =>
          if pred (idx % c.width) (idx / c.width) then
            f (idx % c.width) (idx / c.width) p
          else p) 0 c.data }

/-- Axis-aligned box in full-resolution image coordinates. -/
structure Box where
  x : ℚ
  y : ℚ
  width : ℚ
  height : ℚ
deriving DecidableEq

/-- One 68-point-landmark position. -/
structure LPoint where
  x : ℚ
  y : ℚ
deriving DecidableEq

/-- Detector landmarks object (`landmarks.positions`). -/
structure Landmarks where
  positions : List LPoint
deriving DecidableEq

/-- The stream of values produced by successive `Math.random()` calls. -/
def RStream : Type := List ℚ

instance : DecidableEq RStream := inferInstanceAs (DecidableEq (List ℚ))

/-- Draw the next random value (an exhausted stream yields 0). -/
def RStream.next : RStream → ℚ × RStream
  | [] => (0, [])
  | q :: t => (q, t)

/-- Pixel-centre membership in the half-open rect `[rx, rx+rw) × [ry, ry+rh)`
(hard-edge `fillRect`). -/
def rectB (rx ry rw rh : ℚ) (i j : ℕ) : Bool :=
  decide (rx ≤ (i : ℚ) + 1/2 ∧ (i : ℚ) + 1/2 < rx + rw ∧
          ry ≤ (j : ℚ) + 1/2 ∧ (j : ℚ) + 1/2 < ry + rh)

/-- Pixel-centre membership in the ellipse of centre `(cx, cy)` and radii
`(rx, ry)`, written multiplied out to avoid division. -/
def ellipseB (cx cy rx ry : ℚ) (i j : ℕ) : Bool :=
  decide (((i : ℚ) + 1/2 - cx)^2 * ry^2 + ((j : ℚ) + 1/2 - cy)^2 * rx^2 ≤
          rx^2 * ry^2)

/-- Opaque black (`#000000`). -/
def blackPx : Pixel := ⟨0, 0, 0, 255⟩

/-- Opaque red (`#ff0000`, the solid-color default). -/
def redPx : Pixel := ⟨255, 0, 0, 255⟩

/-- Source-over blend of a colour with alpha `a ∈ [0,1]` onto an (assumed
opaque) destination pixel, per channel with JS rounding. -/
def blendPx (sr sg sb : ℚ) (al : ℚ) (p : Pixel) : Pixel :=
  ⟨(jsRound (sr * al + (p.r : ℚ) * (1 - al))).toNat,
   (jsRound (sg * al + (p.g : ℚ) * (1 - al))).toNat,
   (jsRound (sb * al + (p.b : ℚ) * (1 - al))).toNat,
   (jsRound (255 * al + (p.a : ℚ) * (1 - al))).toNat⟩

/-- `ctx.fillRect` with an opaque colour. -/
def fillRectPx (c : Canvas) (rx ry rw rh : ℚ) (col : Pixel) : Canvas :=
  mapPixelsWhere c (rectB rx ry rw rh) (fun _ _ _ => col)

/-- `ctx.fillRect` with an `rgba(...)` colour (alpha blend). -/
def fillRectBlend (c : Canvas) (rx ry rw rh : ℚ) (sr sg sb al : ℚ) : Canvas :=
  mapPixelsWhere c (rectB rx ry rw rh) (fun _ _ p => blendPx sr sg sb al p)

/-- `ctx.ellipse` + `ctx.fill` with an opaque colour. -/
def fillEllipsePx (c : Canvas) (cx cy rx ry : ℚ) (col : Pixel) : Canvas :=
  mapPixelsWhere c (ellipseB cx cy rx ry) (fun _ _ _ => col)

/-- Browser/runtime primitives used by effects.js but not computed by the
repository's own code: each is an arbitrary but fixed (deterministic)
function. -/
structure Env where
  /-- `typeof ctx.filter !== "undefined"` in `applyBlur`. -/
  filterSupported : Bool
  /-- Pixel produced at `(i, j)` by `drawImage` under a CSS `blur(px)` filter
  reading from the given source canvas. -/
  blurSample : Canvas → ℤ → ℕ → ℕ → Pixel
  /-- Pixel `(i, j)` of the offscreen canvas obtained by the smoothed
  `drawImage` downscale of the box region to `scaledW × scaledH`. -/
  downsample : Canvas → Box → ℕ → ℕ → ℕ → ℕ → Pixel
  /-- Glyph coverage for `fillText emoji` at font size `size` centred at
  `(cx, cy)`: the rasterised pixel at `(i, j)`, when covered. -/
  glyphPx : String → ℚ → ℚ → ℚ → ℕ → ℕ → Option Pixel
  /-- Coverage of the filled jaw/forehead landmark path of `applySilhouette`
  (landmark points, face box, forehead height, pixel coordinates). -/
  silRegion : List LPoint → Box → ℚ → ℕ → ℕ → Bool
  /-- `Math.cos`. -/
  cosQ : ℚ → ℚ
  /-- `Math.sin`. -/
  sinQ : ℚ → ℚ
  /-- `Math.sqrt`. -/
  sqrtQ : ℚ → ℚ
  /-- `Math.PI`. -/
  piQ : ℚ

/-- Minimum of a list of rationals (`Math.min(...)`, nonempty use sites). -/
def listMinQ : List ℚ → ℚ
  | [] => 0
  | a :: t => t.foldl min a

/-- Maximum of a list of rationals (`Math.max(...)`, nonempty use sites). -/
def listMaxQ : List ℚ → ℚ
  | [] => 0
  | a :: t => t.foldl max a

/-- Per-face options passed to the effect engine (global or per-region). -/
structure EffOptions where
  emoji : Option String
  color : Option Pixel
deriving DecidableEq

/-- Block size of `applyPixelate` (effects.js line 61):
`Math.max(2, Math.round((intensity / 100) * maxBlocks) + 2)` with
`maxBlocks = Math.max(4, faceSize * 0.1)`, `faceSize = min(w, h)`. -/
def pixelateBlockSize (intensity w h : ℚ) : ℤ :=
  max 2 (jsRound (intensity / 100 * max 4 (min w h * (1/10))) + 2)

/-- Downscaled width of `applyPixelate` (effects.js line 63):
`Math.max(1, Math.ceil(width / blockSize))`. -/
def pixelateScaled (w : ℚ) (bs : ℤ) : ℤ :=
  max 1 ⌈w / (bs : ℚ)⌉

/-- `applyPixelate` (effects.js lines 56-87): downscale the box region into
an offscreen canvas, then nearest-neighbour upscale it back into the
ellipse-clipped box. -/
def applyPixelate (env : Env) (c src : Canvas) (box : Box) (intensity : ℚ) :
    Canvas :=
  let bs := pixelateBlockSize intensity box.width box.height
  let sw := (pixelateScaled box.width bs).toNat
  let sh := (pixelateScaled box.height bs).toNat
  let off : ℕ → ℕ → Pixel := fun u v => env.downsample src box sw sh u v
  mapPixelsWhere c
    (fun i j =>
      ellipseB (box.x + box.width/2) (box.y + box.height/2)
        (box.width/2) (box.height/2) i j &&
      rectB box.x box.y box.width box.height i j)
    (fun i j _ =>
      let u := min (sw - 1) (⌊(((i : ℚ) + 1/2 - box.x) * sw) / box.width⌋).toNat
      let v := min (sh - 1) (⌊(((j : ℚ) + 1/2 - box.y) * sh) / box.height⌋).toNat
      off u v)

/-- `applyBlur` (effects.js lines 10-50): elliptical clip padded by
`min(faceSize * 0.05, 20)`; native path draws a blurred copy of the margin
rect, fallback path pixelates with intensity `max(4, blurPx)`. -/
def applyBlur (env : Env) (c src : Canvas) (box : Box) (intensity : ℚ) :
    Canvas :=
  let faceSize := min box.width box.height
  let padding := min (faceSize * (5/100)) 20
  let blurZ : ℤ := max 2 (jsRound (intensity / 100 * faceSize * (7/100)))
  if env.filterSupported then
    let margin : ℚ := padding + blurZ
    let sx := max 0 (box.x - margin)
    let sy := max 0 (box.y - margin)
    let sw := min ((src.width : ℚ) - sx) (box.width + margin * 2)
    let sh := min ((src.height : ℚ) - sy) (box.height + margin * 2)
    mapPixelsWhere c
      (fun i j =>
        ellipseB (box.x + box.width/2) (box.y + box.height/2)
          (box.width/2 + padding) (box.height/2 + padding) i j &&
        rectB sx sy sw sh i j)
      (fun i j _ => env.blurSample src blurZ i j)
  else
    applyPixelate env c src box (max 4 (blurZ : ℚ))

/-- `applyBlackBarEyes` (effects.js lines 93-128): landmark-driven bar over
the eye cluster when 48+ landmark positions exist, else a bar estimated at
28% down the box. -/
def applyBlackBarEyes (c : Canvas) (box : Box) (intensity : ℚ)
    (lm : Option Landmarks) : Canvas :=
  let mult := 1/2 + intensity / 100 * (3/2)
  match lm with
  | some l =>
    if 48 ≤ l.positions.length then
      let leftEye := (l.positions.drop 36).take 6
      let rightEye := (l.positions.drop 42).take 6
      let allPts := leftEye ++ rightEye
      let minX := listMinQ (allPts.map (·.x))
      let maxX := listMaxQ (allPts.map (·.x))
      let minY := listMinQ (allPts.map (·.y))
      let maxY := listMaxQ (allPts.map (·.y))
      let eyeW := maxX - minX
      let eyeH := maxY - minY
      let padH := eyeW * (25/100)
      let barH := max (eyeH * (5/2)) (box.height * (14/100)) * mult
      let barY := (minY + maxY) / 2 - barH / 2
      fillRectPx c (minX - padH) barY (eyeW + padH * 2) barH blackPx
    else
      fillRectPx c box.x (box.y + box.height * (28/100)) box.width
        (box.height * (16/100) * mult) blackPx
  | none =>
    fillRectPx c box.x (box.y + box.height * (28/100)) box.width
      (box.height * (16/100) * mult) blackPx

/-- `applyBlackout` (effects.js lines 134-148): black ellipse at 1.05× the
half-dimensions. -/
def applyBlackout (c : Canvas) (box : Box) : Canvas :=
  fillEllipsePx c (box.x + box.width/2) (box.y + box.height/2)
    (box.width/2 * (105/100)) (box.height/2 * (105/100)) blackPx

/-- `applySolidColor` (effects.js lines 176-197): like blackout with the
option colour (default opaque red). -/
def applySolidColor (c : Canvas) (box : Box) (color : Option Pixel) : Canvas :=
  fillEllipsePx c (box.x + box.width/2) (box.y + box.height/2)
    (box.width/2 * (105/100)) (box.height/2 * (105/100)) (color.getD redPx)

/-- `applyEmoji` (effects.js lines 153-171): one glyph centred in the box at
font size `max(w, h) * (0.6 + intensity/100 * 0.8)`. -/
def applyEmoji (env : Env) (c : Canvas) (box : Box) (intensity : ℚ)
    (emoji : Option String) : Canvas :=
  let size := max box.width box.height * (6/10 + intensity / 100 * (8/10))
  let g := env.glyphPx (emoji.getD "😀") size (box.x + box.width/2)
    (box.y + box.height/2)
  mapPixelsWhere c (fun i j => (g i j).isSome)
    (fun i j p => (g i j).getD p)

/-- `applySilhouette` (effects.js lines 317-383): near-black fill of the
jaw/forehead landmark path, or of a 1.05×/1.15× ellipse without landmarks. -/
def applySilhouette (env : Env) (c : Canvas) (box : Box) (intensity : ℚ)
    (lm : Option Landmarks) : Canvas :=
  let darkness := 1/10 + (1 - intensity / 100) * (3/10)
  let col : Pixel := ⟨(jsRound (darkness * 50)).toNat,
    (jsRound (darkness * 50)).toNat, (jsRound (darkness * 60)).toNat, 255⟩
  match lm with
  | some l =>
    if 17 ≤ l.positions.length then
      let leftBrow := (l.positions.drop 17).take 5
      let rightBrow := (l.positions.drop 22).take 5
      let browTop := listMinQ ((leftBrow ++ rightBrow).map (·.y))
      let fhH := (browTop - box.y) * (6/10)
      mapPixelsWhere c (env.silRegion l.positions box fhH) (fun _ _ _ => col)
    else
      fillEllipsePx c (box.x + box.width/2) (box.y + box.height/2)
        (box.width/2 * (105/100)) (box.height/2 * (115/100)) col
  | none =>
    fillEllipsePx c (box.x + box.width/2) (box.y + box.height/2)
      (box.width/2 * (105/100)) (box.height/2 * (115/100)) col

/-- `fx` of `applyGlitch`/`applySwirl`: `Math.round(Math.max(0, x))`. -/
def glitchFx (box : Box) : ℤ := jsRound (max 0 box.x)

/-- `fy` of `applyGlitch`/`applySwirl`. -/
def glitchFy (box : Box) : ℤ := jsRound (max 0 box.y)

/-- `fw` of `applyGlitch`/`applySwirl`:
`Math.round(Math.min(width, sourceCanvas.width - fx))`. -/
def glitchFw (src : Canvas) (box : Box) : ℤ :=
  jsRound (min box.width ((src.width : ℚ) - (glitchFx box : ℚ)))

/-- `fh` of `applyGlitch`/`applySwirl`. -/
def glitchFh (src : Canvas) (box : Box) : ℤ :=
  jsRound (min box.height ((src.height : ℚ) - (glitchFy box : ℚ)))

/-- `ctx.getImageData(fx, fy, fw, fh)` as a row-major pixel list. -/
def getImageDataL (c : Canvas) (fx fy fw fh : ℕ) : List Pixel :=
  (List.range (fw * fh)).map fun k => getPixel c (fx + k % fw) (fy + k / fw)

/-- `ctx.putImageData(buf, fx, fy)` for a `fw × fh` buffer. -/
def putImageDataL (c : Canvas) (fx fy fw fh : ℕ) (buf : List Pixel) : Canvas :=
  mapPixelsWhere c
    (fun i j => decide (fx ≤ i ∧ i < fx + fw ∧ fy ≤ j ∧ j < fy + fh))
    (fun i j _ => buf.getD ((j - fy) * fw + (i - fx)) default)

/-- Clamp `col - shift` to `[0, fw-1]`
(`Math.min(fw - 1, Math.max(0, col - shift))`). -/
def clampCol (fw : ℕ) (v : ℤ) : ℕ := (min ((fw : ℤ) - 1) (max 0 v)).toNat

/-- One shifted row write of the glitch row-displacement pass. -/
def glitchShiftRow (res data : List Pixel) (row fw : ℕ) (shift : ℤ) :
    List Pixel :=
  mapIdxGo
    (fun idx p =>
      if idx / fw = row then
        data.getD (row * fw + clampCol fw ((idx % fw : ℕ) - shift)) default
      else p) 0 res

/-- One red-channel band write of the glitch channel-separation pass. -/
def glitchBand (res data : List Pixel) (fw fh bandY bandH : ℕ)
    (channelShift : ℤ) : List Pixel :=
  mapIdxGo
    (fun idx p =>
      let row := idx / fw
      if bandY ≤ row ∧ row < min fh (bandY + bandH) then
        { p with r := (data.getD (row * fw +
            clampCol fw ((idx % fw : ℕ) + channelShift)) default).r }
      else p) 0 res

/-- `applyGlitch` (effects.js lines 203-255): random horizontal slice
displacement then red-channel separation on random bands, all inside the
clamped box rect. -/
def applyGlitch (c src : Canvas) (box : Box) (intensity : ℚ) (r : RStream) :
    Canvas × RStream :=
  let fxZ := glitchFx box
  let fyZ := glitchFy box
  let fwZ := glitchFw src box
  let fhZ := glitchFh src box
  if fwZ ≤ 0 ∨ fhZ ≤ 0 then (c, r)
  else
    let fx := fxZ.toNat
    let fy := fyZ.toNat
    let fw := fwZ.toNat
    let fh := fhZ.toNat
    let data := getImageDataL c fx fy fw fh
    let strength := intensity / 100
    let rows := (List.range fh).foldl
      (fun (acc : List Pixel × RStream) row =>
        let (r1, s1) := RStream.next acc.2
        if r1 < 3/10 * strength then
          let (r2, s2) := RStream.next s1
          let shift := ⌊(r2 - 1/2) * fw * (3/10) * strength⌋
          (glitchShiftRow acc.1 data row fw shift, s2)
        else (acc.1, s1)) (data, r)
    let numBands := (⌊3 + strength * 8⌋).toNat
    let bands := (List.range numBands).foldl
      (fun (acc : List Pixel × RStream) _ =>
        let (rA, s1) := RStream.next acc.2
        let bandY := (⌊rA * fh⌋).toNat
        let (rB, s2) := RStream.next s1
        let bandH := (⌊rB * fh * (8/100)⌋ + 1).toNat
        let (rC, s3) := RStream.next s2
        let channelShift := ⌊(rC - 1/2) * fw * (15/100) * strength⌋
        (glitchBand acc.1 data fw fh bandY bandH channelShift, s3)) rows
    (putImageDataL c fx fy fw fh bands.1, bands.2)

/-- `applySwirl` (effects.js lines 261-311): per-pixel inverse polar remap of
the clamped box rect, nearest-neighbour sampled, coordinates clamped inside
the rect. -/
def applySwirl (env : Env) (c src : Canvas) (box : Box) (intensity : ℚ) :
    Canvas :=
  let fwZ := glitchFw src box
  let fhZ := glitchFh src box
  if fwZ ≤ 0 ∨ fhZ ≤ 0 then c
  else
    let fx := (glitchFx box).toNat
    let fy := (glitchFy box).toNat
    let fw := fwZ.toNat
    let fh := fhZ.toNat
    let srcData := getImageDataL c fx fy fw fh
    let swirlAngle := intensity / 100 * env.piQ * 4
    let cx := (fw : ℚ) / 2
    let cy := (fh : ℚ) / 2
    let maxRadius := env.sqrtQ (cx * cx + cy * cy)
    let out := (List.range (fw * fh)).map fun k =>
      let px := k % fw
      let py := k / fw
      let dx := (px : ℚ) - cx
      let dy := (py : ℚ) - cy
      let dist := env.sqrtQ (dx * dx + dy * dy)
      let angle := swirlAngle * (1 - dist / maxRadius)
      let co := env.cosQ angle
      let si := env.sinQ angle
      let srcX := max 0 (min ((fw : ℚ) - 1) (co * dx - si * dy + cx))
      let srcY := max 0 (min ((fh : ℚ) - 1) (si * dx + co * dy + cy))
      srcData.getD ((jsRound srcY).toNat * fw + (jsRound srcX).toNat) default
    putImageDataL c fx fy fw fh out

/-- `applyRedact` (effects.js lines 389-410): opaque rect at ±4 px, faint
scan lines every 3 px, 15 random dark speckles along the top/bottom edges. -/
def applyRedact (c : Canvas) (box : Box) (r : RStream) : Canvas × RStream :=
  let pad : ℚ := 4
  let c1 := fillRectPx c (box.x - pad) (box.y - pad) (box.width + pad * 2)
    (box.height + pad * 2) blackPx
  let numLines := (⌈box.height / 3⌉).toNat
  let c2 := (List.range numLines).foldl
    (fun acc k =>
      fillRectBlend acc (box.x - pad) (box.y + 3 * k) (box.width + pad * 2) 1
        255 255 255 (3/100)) c1
  let speckles := (List.range 15).foldl
    (fun (acc : Canvas × RStream) _ =>
      let (r1, s1) := RStream.next acc.2
      let ex := box.x - pad + r1 * (box.width + pad * 2)
      let (r2, s2) := RStream.next s1
      let ey := box.y - pad + (if r2 < 1/2 then 0 else box.height + pad * 2)
      (fillRectBlend acc.1 (ex - 1) (ey - 1) 3 3 0 0 0 (6/10), s2)) (c2, r)
  speckles

/-- `applyEffect` (effects.js lines 415-468): dispatch on the effect id,
falling back to blur for unknown ids. -/
def applyEffect (env : Env) (c src : Canvas) (box : Box) (effectId : String)
    (intensity : ℚ) (lm : Option Landmarks) (opts : EffOptions)
    (r : RStream) : Canvas × RStream :=
  if effectId = "blur" then (applyBlur env c src box intensity, r)
  else if effectId = "pixelate" then (applyPixelate env c src box intensity, r)
  else if effectId = "black-bar-eyes" then
    (applyBlackBarEyes c box intensity lm, r)
  else if effectId = "blackout" then (applyBlackout c box, r)
  else if effectId = "emoji" then
    (applyEmoji env c box intensity opts.emoji, r)
  else if effectId = "solid-color" then
    (applySolidColor c box opts.color, r)
  else if effectId = "glitch" then applyGlitch c src box intensity r
  else if effectId = "swirl" then (applySwirl env c src box intensity, r)
  else if effectId = "silhouette" then
    (applySilhouette env c box intensity lm, r)
  else if effectId = "redact" then applyRedact c box r
  else (applyBlur env c src box intensity, r)

/-- Face Region entity (app.js / processor.js): detected or manual region
with optional per-region effect overrides. -/
structure Face where
  id : String
  box : Box
  score : ℚ
  landmarks : Option Landmarks
  manual : Bool
  effectId : Option String
  intensity : Option ℚ
  options : Option EffOptions
deriving DecidableEq

/-- Pipeline state of `processImage`: the untouched source surface, the
cloned destination being drawn on, and the random stream. -/
structure PipeState where
  source : Canvas
  dest : Canvas
  rnd : RStream
deriving DecidableEq

/-- One `applyEffect` call of the `processImage` loop: effects draw through
the destination's context while reading the source argument. -/
def pipeStep (env : Env) (gId : String) (gI : ℚ) (gOpts : EffOptions)
    (st : PipeState) (f : Face) : PipeState :=
  let out := applyEffect env st.dest st.source f.box (f.effectId.getD gId)
    (f.intensity.getD gI) f.landmarks (f.options.getD gOpts) st.rnd
  { source := st.source, dest := out.1, rnd := out.2 }

/-- The face loop of `processImage`. -/
def pipeGo (env : Env) (faces : List Face) (gId : String) (gI : ℚ)
    (gOpts : EffOptions) (st : PipeState) : PipeState :=
  faces.foldl (pipeStep env gId gI gOpts) st

/-- `processImage` (processor.js lines 141-155): clone the full-resolution
canvas, then apply each region's effect to the clone in list order. -/
def processImage (env : Env) (full : Canvas) (faces : List Face)
    (gId : String) (gI : ℚ) (gOpts : EffOptions) (r : RStream) : PipeState :=
  pipeGo env faces gId gI gOpts
    { source := full, dest := cloneCanvas full, rnd := r }

/-- Snapshot of a photo's editable state (`{faces, selectedFaceId}` as pushed
by `pushUndo`; the JS deep copy is the identity under value semantics). -/
structure Snap where
  faces : List Face
  selectedFaceId : Option String
deriving DecidableEq

/-- Editable per-photo state (app.js `createPhotoState`, the fields the
history claims concern). -/
structure Photo where
  faces : List Face
  selectedFaceId : Option String
  undoStack : List Snap
  redoStack : List Snap
deriving DecidableEq

/-- `MAX_UNDO` (app.js line 494). -/
def MAX_UNDO : ℕ := 50

/-- Take the pre-mutation snapshot of a photo. -/
def snapshotOf (p : Photo) : Snap := ⟨p.faces, p.selectedFaceId⟩

/-- `undoStack.push(s)` followed by `if (length > MAX_UNDO) shift()`. -/
def capPush (u : List Snap) (s : Snap) : List Snap :=
  let v := u ++ [s]
  if MAX_UNDO < v.length then v.tail else v

/-- `pushUndo` (app.js lines 496-509): push the pre-mutation snapshot
(capped) and clear the redo stack. -/
def pushUndo (p : Photo) : Photo :=
  { p with undoStack := capPush p.undoStack (snapshotOf p), redoStack := [] }

/-- `stack.pop()`: split a list into its front part and its last element. -/
def splitLast : List Snap → Option (List Snap × Snap)
  | [] => none
  | [s] => some ([], s)
  | a :: b :: t =>
    match splitLast (b :: t) with
    | none => none
    | some (front, last) => some (a :: front, last)

/-- `handleUndo` (app.js lines 511-533): push the current state onto redo,
pop the newest undo snapshot and restore it; no-op on an empty stack. -/
def undoFun (p : Photo) : Photo :=
  match splitLast p.undoStack with
  | none => p
  | some (front, top) =>
    { faces := top.faces, selectedFaceId := top.selectedFaceId,
      undoStack := front,
      redoStack := p.redoStack ++ [snapshotOf p] }

/-- `handleRedo` (app.js lines 535-557): the mirror of `handleUndo` (note:
its push onto the undo stack is uncapped in the code). -/
def redoFun (p : Photo) : Photo :=
  match splitLast p.redoStack with
  | none => p
  | some (front, top) =>
    { faces := top.faces, selectedFaceId := top.selectedFaceId,
      undoStack := p.undoStack ++ [snapshotOf p],
      redoStack := front }

/-- Iterate `handleUndo`. -/
def undoIter : ℕ → Photo → Photo
  | 0, p => p
  | n + 1, p => undoFun (undoIter n p)

/-- Replace the box of the first face with the given id
(`faces.find(...).box = newBox`). -/
def setBoxFirst : List Face → String → Box → List Face
  | [], _, _ => []
  | f :: t, fid, b =>
    if f.id = fid then { f with box := b } :: t else f :: setBoxFirst t fid b

/-- `handleFaceMoved` / `handleFaceResized` (app.js lines 456-476): find the
face, push undo, replace its box. -/
def handleFaceMoved (p : Photo) (faceId : String) (newBox : Box) : Photo :=
  if p.faces.any (fun f => f.id = faceId) then
    { pushUndo p with faces := setBoxFirst p.faces faceId newBox }
  else p

/-- `handleFaceDrawn` (app.js lines 438-454): push undo, append the new
manual face, select it. -/
def handleFaceDrawn (p : Photo) (f : Face) : Photo :=
  { pushUndo p with faces := p.faces ++ [f], selectedFaceId := some f.id }

/-- `handleFaceRemoved` (app.js lines 478-490): splice out the selected face
(`findIndex` is modelled by `findIdx`, which returns the length when the
predicate never holds, matching the `idx >= 0` guard). -/
def handleFaceRemoved (p : Photo) : Photo :=
  match p.selectedFaceId with
  | none => p
  | some sid =>
    let idx := p.faces.findIdx (fun f => f.id = sid)
    if idx < p.faces.length then
      { pushUndo p with faces := p.faces.eraseIdx idx, selectedFaceId := none }
    else p

/-- A face-list mutating operation of the history model. -/
inductive MutOp where
  | draw (f : Face)
  | move (faceId : String) (b : Box)
  | resize (faceId : String) (b : Box)
  | remove
deriving DecidableEq

/-- Apply one mutating operation through its app.js handler. -/
def applyOp : MutOp → Photo → Photo
  | .draw f, p => handleFaceDrawn p f
  | .move fid b, p => handleFaceMoved p fid b
  | .resize fid b, p => handleFaceMoved p fid b
  | .remove, p => handleFaceRemoved p

/-- Guard under which an operation actually mutates (and pushes a snapshot):
the handlers above are no-ops otherwise. -/
def okOp : MutOp → Photo → Bool
  | .draw _, _ => true
  | .move fid _, p => p.faces.any (fun f => f.id = fid)
  | .resize fid _, p => p.faces.any (fun f => f.id = fid)
  | .remove, p =>
    match p.selectedFaceId with
    | none => false
    | some sid => p.faces.findIdx (fun f => f.id = sid) < p.faces.length

/-- Every operation of the sequence mutates at its point of application. -/
def okSeqB : List MutOp → Photo → Bool
  | [], _ => true
  | op :: t, p => okOp op p && okSeqB t (applyOp op p)

/-- Apply a sequence of mutating operations in order. -/
def applyOps (ops : List MutOp) (p : Photo) : Photo :=
  ops.foldl (fun q op => applyOp op q) p

/-- `getDefaultFaceSize` (app.js lines 384-399): median-style pick from the
ascending-sorted larger dimensions of the detected faces, or 15% of the
smaller canvas dimension (`MANUAL_REGION_RATIO`) when none exist. -/
def sortAscQ (l : List ℚ) : List ℚ :=
  l.foldr (fun a acc => acc.takeWhile (fun b => b < a) ++
    a :: acc.dropWhile (fun b => b < a)) []

/-- Sizes of the detected (non-manual) faces, ascending. -/
def detectedSizes (faces : List Face) : List ℚ :=
  sortAscQ ((faces.filter (fun f => !f.manual)).map
    (fun f => max f.box.width f.box.height))

/-- Default side length for a click-created manual region. -/
def getDefaultFaceSize (faces : List Face) (cw ch : ℚ) : ℚ :=
  let det := faces.filter (fun f => !f.manual)
  if det.isEmpty then min cw ch * (15/100)
  else
    let sizes := detectedSizes faces
    sizes.getD (sizes.length / 2) 0

/-- `handleCanvasClick` (app.js lines 401-436): select a hit face, else
deselect, else create a square manual region centred on the click with its
top-left clamped to be nonnegative. `newId` stands for the
`manual-(Date.now())` id. -/
def handleCanvasClick (p : Photo) (cw ch cx cy : ℚ) (newId : String) :
    Photo :=
  match p.faces.find? (fun f =>
      decide (f.box.x ≤ cx ∧ cx ≤ f.box.x + f.box.width ∧
              f.box.y ≤ cy ∧ cy ≤ f.box.y + f.box.height)) with
  | some f => { p with selectedFaceId := some f.id }
  | none =>
    match p.selectedFaceId with
    | some _ => { p with selectedFaceId := none }
    | none =>
      let size := getDefaultFaceSize p.faces cw ch
      let nf : Face := ⟨newId,
        ⟨max 0 (cx - size / 2), max 0 (cy - size / 2), size, size⟩,
        1, none, true, none, none, none⟩
      { pushUndo p with
          faces := p.faces ++ [nf],
          selectedFaceId := some newId }

/-- `isOutsideCanvas` (ui.js in src/README.md, line 575). -/
def isOutsideCanvas (cw ch x y : ℚ) : Bool :=
  decide (x < 0 ∨ y < 0 ∨ cw < x ∨ ch < y)

/-- The move branch of `handlePointerUp` (ui.js in src/README.md, lines
579-601): if the moved box centre is outside the canvas the selected face is
removed; else if the drag distance exceeds 3 px the face is moved
(`Math.sqrt(dx*dx+dy*dy) > 3` is `dx^2 + dy^2 > 9`); else nothing happens. -/
def completeMove (p : Photo) (cw ch : ℚ) (origBox : Box) (targetId : String)
    (startX startY upX upY : ℚ) : Photo :=
  let dx := upX - startX
  let dy := upY - startY
  let ncx := origBox.x + origBox.width / 2 + dx
  let ncy := origBox.y + origBox.height / 2 + dy
  if isOutsideCanvas cw ch ncx ncy then handleFaceRemoved p
  else if 9 < dx^2 + dy^2 then
    handleFaceMoved p targetId
      ⟨origBox.x + dx, origBox.y + dy, origBox.width, origBox.height⟩
  else p

/-- `MAX_LOADED_CANVASES` (constants.js line 10). -/
def MAX_LOADED_CANVASES : ℕ := 3

/-- Per-photo state as seen by the eviction routine. `lastActiveAt` is a
ghost timestamp recording when the photo was last the active one; the code
keeps no such field and never consults activation recency. -/
structure QPhoto where
  id : String
  hasCanvas : Bool
  status : String
  lastActiveAt : ℕ
deriving DecidableEq

/-- Multi-photo application state for the eviction routine. -/
structure QState where
  photos : List QPhoto
  activePhotoId : Option String
deriving DecidableEq

/-- The `loaded` filter of `evictCanvases` (app.js lines 246-248): photos
holding a surface, excluding the active photo, in photo-list order. -/
def loadedInactive (s : QState) : List QPhoto :=
  s.photos.filter (fun p => p.hasCanvas && !(s.activePhotoId = some p.id : Bool))

/-- `Math.max(0, MAX_LOADED_CANVASES - 1)` (truncated subtraction). -/
def maxInactive : ℕ := MAX_LOADED_CANVASES - 1

/-- `loaded.slice(0, loaded.length - maxInactive)`. -/
def toEvict (s : QState) : List QPhoto :=
  (loadedInactive s).take ((loadedInactive s).length - maxInactive)

/-- `evictCanvases` (app.js lines 245-259): null out the surfaces of the
first overflow-many inactive loaded photos, keeping their status. -/
def evictCanvases (s : QState) : QState :=
  if maxInactive < (loadedInactive s).length then
    { s with photos := s.photos.map (fun p =>
        if (toEvict s).any (fun q => q.id = p.id) then
          { p with hasCanvas := false }
        else p) }
  else s

/-- Closed rectangle membership, used to state region-containment claims. -/
def inClosedRect (x0 x1 y0 y1 px py : ℚ) : Prop :=
  x0 ≤ px ∧ px ≤ x1 ∧ y0 ≤ py ∧ py ≤ y1

instance (x0 x1 y0 y1 px py : ℚ) :
    Decidable (inClosedRect x0 x1 y0 y1 px py) :=
  inferInstanceAs (Decidable (_ ∧ _ ∧ _ ∧ _))

/-- The spec's pixelate block-size formula, written from the spec text:
`max(2, round(intensity/100 × max(4, min(w,h)×0.1)) + 2)`. -/
def specPixelateBlockSize (intensity w h : ℚ) : ℤ :=
  max 2 (jsRound (intensity / 100 * max 4 (min w h * (1/10))) + 2)

/-- A concrete environment instantiating the browser oracles (witnesses
only; no theorem depends on its particular values). -/
def trivEnv : Env :=
  { filterSupported := true
    blurSample := fun _ _ _ _ => ⟨0, 0, 0, 255⟩
    downsample := fun _ _ _ _ _ _ => ⟨0, 0, 0, 255⟩
    glyphPx := fun _ _ _ _ _ _ => none
    silRegion := fun _ _ _ _ _ => false
    cosQ := fun _ => 1
    sinQ := fun _ => 0
    sqrtQ := fun _ => 0
    piQ := 3 }

/-- Empty global options. -/
def optsNone : EffOptions := ⟨none, none⟩

/-- 10×1 red-gradient canvas used to exercise the glitch row shift. -/
def cGrad10 : Canvas := ⟨10, 1, (List.range 10).map fun k => ⟨k, 0, 0, 255⟩⟩

/-- 16×16 uniform grey canvas used to exercise redact. -/
def cGrey16 : Canvas := ⟨16, 16, List.replicate 256 ⟨100, 100, 100, 255⟩⟩

/-- 10×10 uniform grey canvas used to exercise the eye-bar fallback. -/
def cGrey10 : Canvas := ⟨10, 10, List.replicate 100 ⟨200, 200, 200, 255⟩⟩

/-- A face over the whole 10×1 canvas with no overrides. -/
def faceGlitch : Face := ⟨"f", ⟨0, 0, 10, 1⟩, 1, none, false, none, none, none⟩

/-- A tiny manual face used by the history fixtures. -/
def faceTiny : Face := ⟨"a", ⟨0, 0, 1, 1⟩, 1, none, true, none, none, none⟩

/-- A photo with no faces and empty history. -/
def photoEmpty : Photo := ⟨[], none, [], []⟩

/-- A selected 20×20 face at (10,10) for the move-gesture fixtures. -/
def faceSel : Face := ⟨"f1", ⟨10, 10, 20, 20⟩, 1, none, true, none, none, none⟩

/-- Photo holding `faceSel`, selected, with empty history. -/
def photoSel : Photo := ⟨[faceSel], some "f1", [], []⟩

/-- Eviction fixture: insertion order p1..p4, all holding surfaces, active
p4; recency (ghost) order makes p2 the least-recently-active inactive photo
while p1 is the most recent. -/
def stateEvict : QState :=
  ⟨[⟨"p1", true, "detected", 30⟩, ⟨"p2", true, "detected", 10⟩,
    ⟨"p3", true, "detected", 20⟩, ⟨"p4", true, "detected", 40⟩],
   some "p4"⟩

/-- Two detected faces (larger dimensions 10 and 20) away from the click
point, used for the manual-region-size fixture. -/
def photoTwoDet : Photo :=
  ⟨[⟨"d1", ⟨0, 0, 10, 5⟩, 9/10, none, false, none, none, none⟩,
    ⟨"d2", ⟨0, 20, 20, 8⟩, 9/10, none, false, none, none, none⟩],
   none, [], []⟩

/-- Placeholder photo entry used as a `getD` default in statements. -/
def qDummy : QPhoto := ⟨"", false, "", 0⟩

/-- Placeholder face used as a `getD` default in statements. -/
def faceDummy : Face := ⟨"", ⟨0, 0, 0, 0⟩, 0, none, false, none, none, none⟩

theorem mapIdxGo_getD (f : ℕ → Pixel → Pixel) (l : List Pixel) :
    ∀ (n k : ℕ) (d : Pixel),
    (mapIdxGo f n l).getD k d =
      if k < l.length then f (n + k) (l.getD k d) else d := by
  induction l with
  | nil => intro n k d; simp [mapIdxGo]
  | cons p t ih =>
    intro n k d
    cases k with
    | zero => simp [mapIdxGo]
    | succ k =>
      simp only [mapIdxGo, List.getD_cons_succ, List.length_cons]
      rw [ih (n + 1) k d]
      have hnk : n + 1 + k = n + (k + 1) := by omega
      by_cases h : k < t.length
      · rw [if_pos h, if_pos (by omega), hnk]
      · rw [if_neg h, if_neg (by omega)]

theorem getPixel_mapPixelsWhere (c : Canvas) (pred : ℕ → ℕ → Bool)
    (f : ℕ → ℕ → Pixel → Pixel) (i j : ℕ) (hi : i < c.width)
    (hp : pred i j = false) :
    getPixel (mapPixelsWhere c pred f) i j = getPixel c i j := by
  unfold getPixel mapPixelsWhere
  simp only
  rw [mapIdxGo_getD]
  by_cases h : j * c.width + i < c.data.length
  · rw [if_pos h]
    have hw : 0 < c.width := by omega
    have hmod : (0 + (j * c.width + i)) % c.width = i := by
      rw [Nat.zero_add, Nat.mul_comm j c.width, Nat.mul_add_mod,
        Nat.mod_eq_of_lt hi]
    have hdiv : (0 + (j * c.width + i)) / c.width = j := by
      rw [Nat.zero_add, Nat.mul_comm j c.width, Nat.mul_add_div hw,
        Nat.div_eq_of_lt hi, Nat.add_zero]
    simp only [hmod, hdiv, hp, if_neg]
    simp
  · rw [if_neg h]
    rw [List.getD_eq_default _ _ (by omega)]

theorem sq_le_interval {a b : ℚ} (h : a ^ 2 ≤ b ^ 2) (hb : 0 ≤ b) :
    -b ≤ a ∧ a ≤ b := by
  constructor <;> nlinarith

/-- Points of the ellipse region lie in its bounding rectangle. -/
theorem ellipse_mem_bounds {cx cy rx ry px py : ℚ}
    (h : (px - cx) ^ 2 * ry ^ 2 + (py - cy) ^ 2 * rx ^ 2 ≤ rx ^ 2 * ry ^ 2)
    (hrx : 0 < rx) (hry : 0 < ry) :
    cx - rx ≤ px ∧ px ≤ cx + rx ∧ cy - ry ≤ py ∧ py ≤ cy + ry := by
  have hx1 : (px - cx) ^ 2 * ry ^ 2 ≤ rx ^ 2 * ry ^ 2 := by
    nlinarith [mul_nonneg (sq_nonneg (py - cy)) (sq_nonneg rx)]
  have hy1 : (py - cy) ^ 2 * rx ^ 2 ≤ ry ^ 2 * rx ^ 2 := by
    nlinarith [mul_nonneg (sq_nonneg (px - cx)) (sq_nonneg ry)]
  have hx2 : (px - cx) ^ 2 ≤ rx ^ 2 :=
    le_of_mul_le_mul_right hx1 (by positivity)
  have hy2 : (py - cy) ^ 2 ≤ ry ^ 2 :=
    le_of_mul_le_mul_right hy1 (by positivity)
  have hx := sq_le_interval hx2 (le_of_lt hrx)
  have hy := sq_le_interval hy2 (le_of_lt hry)
  exact ⟨by linarith [hx.1], by linarith [hx.2], by linarith [hy.1],
    by linarith [hy.2]⟩

theorem pipeGo_source (env : Env) (gId : String) (gI : ℚ) (gOpts : EffOptions)
    (faces : List Face) :
    ∀ st : PipeState,
    (pipeGo env faces gId gI gOpts st).source = st.source := by
  induction faces with
  | nil => intro st; rfl
  | cons f t ih =>
    intro st
    show (pipeGo env t gId gI gOpts (pipeStep env gId gI gOpts st f)).source = _
    rw [ih]
    rfl

/-- Claim C9: `processImage` never modifies the input full-resolution canvas.
It clones the surface (`cloneCanvas`, pixel-identical) and every effect draws
through the clone's context, so after the pipeline runs the source component
is the untouched input and each of its pixels equals its prior value. -/
theorem processImage_preserves_source (env : Env) (full : Canvas)
    (faces : List Face) (gId : String) (gI : ℚ) (gOpts : EffOptions)
    (r : RStream) (i j : ℕ) :
    (processImage env full faces gId gI gOpts r).source = full ∧
    getPixel (processImage env full faces gId gI gOpts r).source i j =
      getPixel full i j ∧
    cloneCanvas full = full := by
  have hs : (processImage env full faces gId gI gOpts r).source = full :=
    pipeGo_source env gId gI gOpts faces _
  exact ⟨hs, by rw [hs], rfl⟩

/-- Claim C5: the pixelate block size matches the documented formula
`max(2, round(intensity/100 × max(4, min(w,h)×0.1)) + 2)`, intensity 0 on a
40×40 box gives block size exactly 2, and the downscaled region is
`ceil(w/block) × ceil(h/block)`. -/
theorem pixelate_block_size_formula (intensity w h : ℚ)
    (h0 : 0 ≤ intensity) (h1 : intensity ≤ 100) (hw : 0 < w) (hh : 0 < h) :
    pixelateBlockSize intensity w h = specPixelateBlockSize intensity w h ∧
    pixelateBlockSize 0 40 40 = 2 ∧
    pixelateScaled w (pixelateBlockSize intensity w h) =
      ⌈w / ((pixelateBlockSize intensity w h : ℤ) : ℚ)⌉ ∧
    pixelateScaled h (pixelateBlockSize intensity w h) =
      ⌈h / ((pixelateBlockSize intensity w h : ℤ) : ℚ)⌉ := by
  have hbs : (2 : ℤ) ≤ pixelateBlockSize intensity w h := le_max_left _ _
  have hbs' : (0 : ℚ) < ((pixelateBlockSize intensity w h : ℤ) : ℚ) := by
    exact_mod_cast lt_of_lt_of_le (by norm_num) hbs
  refine ⟨rfl, by with_unfolding_all rfl, ?_, ?_⟩
  · unfold pixelateScaled
    exact max_eq_right (Int.ceil_pos.mpr (div_pos hw hbs'))
  · unfold pixelateScaled
    exact max_eq_right (Int.ceil_pos.mpr (div_pos hh hbs'))

/-- Witness for C5 at intensity 0 on a 40×40 box. -/
theorem pixelate_block_size_formula_witness :
    ((0 : ℚ) ≤ 0 ∧ (0 : ℚ) ≤ 100 ∧ (0 : ℚ) < 40) ∧
    (pixelateBlockSize 0 40 40 = specPixelateBlockSize 0 40 40 ∧
     pixelateBlockSize 0 40 40 = 2 ∧
     pixelateScaled 40 (pixelateBlockSize 0 40 40) =
       ⌈(40 : ℚ) / ((pixelateBlockSize 0 40 40 : ℤ) : ℚ)⌉ ∧
     pixelateScaled 40 (pixelateBlockSize 0 40 40) =
       ⌈(40 : ℚ) / ((pixelateBlockSize 0 40 40 : ℤ) : ℚ)⌉) :=
  ⟨⟨by norm_num, by norm_num, by norm_num⟩,
   pixelate_block_size_formula 0 40 40 (by norm_num) (by norm_num)
     (by norm_num) (by norm_num)⟩

/-- Claim C7 (amended): on a region without landmarks the eye-bar effect
draws exactly one filled bar spanning the box width, with top edge at 28% of
the box height and height 16% of the box height times the thickness
multiplier `0.5 + intensity/100 × 1.5`; the bar's vertical extent therefore
lies between 28% and 60% of the box height (44% exactly at multiplier 1),
and the fallback never consults landmarks, so nothing can throw. -/
theorem eyebar_fallback_bar (c : Canvas) (box : Box) (intensity : ℚ)
    (h0 : 0 ≤ intensity) (h1 : intensity ≤ 100) (hh : 0 ≤ box.height) :
    applyBlackBarEyes c box intensity none =
      fillRectPx c box.x (box.y + box.height * (28/100)) box.width
        (box.height * (16/100) * (1/2 + intensity / 100 * (3/2))) blackPx ∧
    box.y + box.height * (28/100) +
        box.height * (16/100) * (1/2 + intensity / 100 * (3/2)) ≤
      box.y + box.height * (60/100) ∧
    box.y ≤ box.y + box.height * (28/100) := by
  refine ⟨rfl, ?_, ?_⟩
  · nlinarith [mul_nonneg hh (by linarith : (0:ℚ) ≤ 100 - intensity),
      mul_nonneg hh h0]
  · nlinarith

/-- Witness for C7 on a 10×10 box at intensity 100. -/
theorem eyebar_fallback_bar_witness :
    ((0 : ℚ) ≤ 100 ∧ (100 : ℚ) ≤ 100 ∧ (0 : ℚ) ≤ (Box.mk 0 0 10 10).height) ∧
    (applyBlackBarEyes cGrey10 ⟨0, 0, 10, 10⟩ 100 none =
      fillRectPx cGrey10 (Box.mk 0 0 10 10).x
        ((Box.mk 0 0 10 10).y + (Box.mk 0 0 10 10).height * (28/100))
        (Box.mk 0 0 10 10).width
        ((Box.mk 0 0 10 10).height * (16/100) *
          (1/2 + (100 : ℚ) / 100 * (3/2))) blackPx ∧
     (Box.mk 0 0 10 10).y + (Box.mk 0 0 10 10).height * (28/100) +
         (Box.mk 0 0 10 10).height * (16/100) *
           (1/2 + (100 : ℚ) / 100 * (3/2)) ≤
       (Box.mk 0 0 10 10).y + (Box.mk 0 0 10 10).height * (60/100) ∧
     (Box.mk 0 0 10 10).y ≤
       (Box.mk 0 0 10 10).y + (Box.mk 0 0 10 10).height * (28/100)) :=
  ⟨⟨by norm_num, by norm_num, by norm_num⟩,
   eyebar_fallback_bar cGrey10 ⟨0, 0, 10, 10⟩ 100 (by norm_num) (by norm_num)
     (by norm_num)⟩

/-- Counterexample for C7 as frozen: at intensity 100 on a 10×10 box at the
origin, the landmark-free eye bar modifies pixel (5,5), whose centre sits at
55% of the box height, strictly below the claimed 44% limit. -/
theorem eyebar_fallback_exceeds_claim :
    getPixel (applyBlackBarEyes cGrey10 ⟨0, 0, 10, 10⟩ 100 none) 5 5 ≠
      getPixel cGrey10 5 5 ∧
    (44/100 : ℚ) * 10 < (5 : ℚ) + 1/2 :=
  ⟨of_decide_eq_false (by with_unfolding_all rfl), by norm_num⟩

/-- For every effect id other than glitch and redact, the canvas produced by
`applyEffect` does not depend on the random stream. -/
theorem applyEffect_fst_congr (env : Env) (d s : Canvas) (box : Box)
    (effectId : String) (intensity : ℚ) (lm : Option Landmarks)
    (opts : EffOptions) (r1 r2 : RStream)
    (hg : effectId ≠ "glitch") (hr : effectId ≠ "redact") :
    (applyEffect env d s box effectId intensity lm opts r1).1 =
    (applyEffect env d s box effectId intensity lm opts r2).1 := by
  unfold applyEffect
  split_ifs <;> first | rfl | (exact absurd ‹_› hg) | (exact absurd ‹_› hr)

theorem pipeGo_dest_congr (env : Env) (gId : String) (gI : ℚ)
    (gOpts : EffOptions) (faces : List Face) :
    ∀ st1 st2 : PipeState,
    st1.source = st2.source → st1.dest = st2.dest →
    (∀ f ∈ faces, f.effectId.getD gId ≠ "glitch" ∧
      f.effectId.getD gId ≠ "redact") →
    (pipeGo env faces gId gI gOpts st1).dest =
    (pipeGo env faces gId gI gOpts st2).dest := by
  induction faces with
  | nil => intro st1 st2 _ hd _; exact hd
  | cons f t ih =>
    intro st1 st2 hs hd hall
    obtain ⟨hg, hr⟩ := hall f (List.mem_cons_self f t)
    show (pipeGo env t gId gI gOpts (pipeStep env gId gI gOpts st1 f)).dest = _
    apply ih
    · show st1.source = st2.source
      exact hs
    · show (applyEffect env st1.dest st1.source f.box (f.effectId.getD gId)
        (f.intensity.getD gI) f.landmarks (f.options.getD gOpts) st1.rnd).1 =
        (applyEffect env st2.dest st2.source f.box (f.effectId.getD gId)
        (f.intensity.getD gI) f.landmarks (f.options.getD gOpts) st2.rnd).1
      rw [hs, hd]
      exact applyEffect_fst_congr env _ _ _ _ _ _ _ _ _ hg hr
    · intro f' hf'
      exact hall f' (List.mem_cons_of_mem _ hf')

/-- Claim C1 (amended): rendering is a function of the photo, face list and
settings together with the `Math.random()` sequence. When no region's
effective effect is glitch or redact (the two effects that draw random
values), the output canvas is independent of the random stream, so two
invocations are pixel-identical; glitch and redact reproduce only under an
identical random sequence. -/
theorem processImage_deterministic (env : Env) (full : Canvas)
    (faces : List Face) (gId : String) (gI : ℚ) (gOpts : EffOptions)
    (r1 r2 : RStream)
    (hall : ∀ f ∈ faces, f.effectId.getD gId ≠ "glitch" ∧
      f.effectId.getD gId ≠ "redact") :
    (processImage env full faces gId gI gOpts r1).dest =
    (processImage env full faces gId gI gOpts r2).dest :=
  pipeGo_dest_congr env gId gI gOpts faces _ _ rfl rfl hall

/-- Witness for C1: one blackout face rendered under two different random
streams yields the same canvas. -/
theorem processImage_deterministic_witness :
    (∀ f ∈ [faceTiny], f.effectId.getD "blackout" ≠ "glitch" ∧
      f.effectId.getD "blackout" ≠ "redact") ∧
    (processImage trivEnv cGrad10 [faceTiny] "blackout" 70 optsNone []).dest =
    (processImage trivEnv cGrad10 [faceTiny] "blackout" 70 optsNone
      [1/2, 1/3]).dest :=
  ⟨by intro f hf; simp only [List.mem_singleton] at hf; subst hf
      exact ⟨by with_unfolding_all decide, by with_unfolding_all decide⟩,
   processImage_deterministic trivEnv cGrad10 [faceTiny] "blackout" 70
     optsNone [] [1/2, 1/3]
     (by intro f hf; simp only [List.mem_singleton] at hf; subst hf
         exact ⟨by with_unfolding_all decide, by with_unfolding_all decide⟩)⟩

/-- Counterexample for C1 as frozen: the same photo, face list and settings
rendered twice with the random sequences the two invocations of
`Math.random()` would draw produce different pixels under the glitch effect,
so rendering is not invocation-deterministic for glitch (nor redact). -/
theorem processImage_glitch_streams_differ :
    (processImage trivEnv cGrad10 [faceGlitch] "glitch" 100 optsNone
      []).dest ≠
    (processImage trivEnv cGrad10 [faceGlitch] "glitch" 100 optsNone
      (List.replicate 34 1)).dest :=
  of_decide_eq_false (by with_unfolding_all rfl)

theorem jsRound_intCast (n : ℤ) : jsRound ((n : ℚ)) = n := by
  unfold jsRound
  rw [add_comm, Int.floor_add_int]
  norm_num

theorem getPixel_putImageDataL (c : Canvas) (fx fy fw fh : ℕ)
    (buf : List Pixel) (i j : ℕ) (hi : i < c.width)
    (h : ¬(fx ≤ i ∧ i < fx + fw ∧ fy ≤ j ∧ j < fy + fh)) :
    getPixel (putImageDataL c fx fy fw fh buf) i j = getPixel c i j :=
  getPixel_mapPixelsWhere _ _ _ _ _ hi (decide_eq_false h)

theorem glitchFx_nonneg (box : Box) : 0 ≤ glitchFx box := by
  unfold glitchFx jsRound
  have : (0 : ℚ) ≤ max 0 box.x + 1/2 := by
    have := le_max_left (0 : ℚ) box.x
    linarith
  exact_mod_cast Int.le_floor.mpr (by exact_mod_cast this)

theorem glitchFy_nonneg (box : Box) : 0 ≤ glitchFy box := by
  unfold glitchFy jsRound
  have : (0 : ℚ) ≤ max 0 box.y + 1/2 := by
    have := le_max_left (0 : ℚ) box.y
    linarith
  exact_mod_cast Int.le_floor.mpr (by exact_mod_cast this)

theorem applyGlitch_shape (c src : Canvas) (box : Box) (intensity : ℚ)
    (r : RStream) (hnz : ¬(glitchFw src box ≤ 0 ∨ glitchFh src box ≤ 0)) :
    ∃ buf s,
    applyGlitch c src box intensity r =
      (putImageDataL c (glitchFx box).toNat (glitchFy box).toNat
        (glitchFw src box).toNat (glitchFh src box).toNat buf, s) := by
  simp only [applyGlitch]
  rw [if_neg hnz]
  exact ⟨_, _, rfl⟩

/-- Claim C8 (amended): the glitch effect confines every write to the
rectangle with origin `(round(max(0,x)), round(max(0,y)))` and size
`(round(min(w, W−fx)), round(min(h, H−fy)))`; it is a no-op (returning the
canvas and stream unchanged) when that rectangle is empty, and whenever the
box origin is a nonnegative integer point the rectangle is exactly the
intersection of the box with the canvas — which covers a box extending 50%
past the right edge. The left/top clamp keeps only the origin, not the far
edge, so for a negative origin the rectangle is not the intersection. -/
theorem glitch_clamped_region (c src : Canvas) (box : Box) (intensity : ℚ)
    (r : RStream) (i j : ℕ) (xi yi wi hi : ℤ)
    (hiw : i < c.width)
    (hout : ¬((glitchFx box ≤ (i : ℤ)) ∧ (i : ℤ) < glitchFx box + glitchFw src box ∧
      (glitchFy box ≤ (j : ℤ)) ∧ (j : ℤ) < glitchFy box + glitchFh src box))
    (hx : box.x = (xi : ℚ)) (hy : box.y = (yi : ℚ))
    (hw : box.width = (wi : ℚ)) (hh : box.height = (hi : ℚ))
    (hxi : 0 ≤ xi) (hyi : 0 ≤ yi) :
    getPixel (applyGlitch c src box intensity r).1 i j = getPixel c i j ∧
    (glitchFw src box ≤ 0 ∨ glitchFh src box ≤ 0 →
      applyGlitch c src box intensity r = (c, r)) ∧
    (glitchFx box = xi ∧ glitchFy box = yi ∧
     glitchFw src box = min wi ((src.width : ℤ) - xi) ∧
     glitchFh src box = min hi ((src.height : ℤ) - yi)) := by
  have hfx : glitchFx box = xi := by
    unfold glitchFx
    rw [hx, max_eq_right (by exact_mod_cast hxi)]
    exact jsRound_intCast xi
  have hfy : glitchFy box = yi := by
    unfold glitchFy
    rw [hy, max_eq_right (by exact_mod_cast hyi)]
    exact jsRound_intCast yi
  have hfw : glitchFw src box = min wi ((src.width : ℤ) - xi) := by
    unfold glitchFw
    rw [hw, hfx]
    have : min (wi : ℚ) ((src.width : ℚ) - (xi : ℚ)) =
        ((min wi ((src.width : ℤ) - xi) : ℤ) : ℚ) := by push_cast; rfl
    rw [this, jsRound_intCast]
  have hfh : glitchFh src box = min hi ((src.height : ℤ) - yi) := by
    unfold glitchFh
    rw [hh, hfy]
    have : min (hi : ℚ) ((src.height : ℚ) - (yi : ℚ)) =
        ((min hi ((src.height : ℤ) - yi) : ℤ) : ℚ) := by push_cast; rfl
    rw [this, jsRound_intCast]
  refine ⟨?_, ?_, hfx, hfy, hfw, hfh⟩
  · by_cases hz : glitchFw src box ≤ 0 ∨ glitchFh src box ≤ 0
    · simp only [applyGlitch]
      rw [if_pos hz]
    · obtain ⟨buf, s, hshape⟩ := applyGlitch_shape c src box intensity r hz
      rw [hshape]
      apply getPixel_putImageDataL c _ _ _ _ buf i j hiw
      intro ⟨h1, h2, h3, h4⟩
      apply hout
      have h0x := glitchFx_nonneg box
      have h0y := glitchFy_nonneg box
      omega
  · intro hz
    simp only [applyGlitch]
    rw [if_pos hz]

/-- Witness for C8: a box whose right half extends past the canvas right
edge; the clamped rect is exactly the in-bounds intersection `[6,10)×[0,1)`
and the out-of-rect pixel (0,0) is untouched. -/
theorem glitch_clamped_region_witness :
    ((0 : ℕ) < cGrad10.width ∧
     ¬((glitchFx ⟨6, 0, 8, 1⟩ ≤ (0 : ℤ)) ∧
       (0 : ℤ) < glitchFx ⟨6, 0, 8, 1⟩ + glitchFw cGrad10 ⟨6, 0, 8, 1⟩ ∧
       (glitchFy ⟨6, 0, 8, 1⟩ ≤ (0 : ℤ)) ∧
       (0 : ℤ) < glitchFy ⟨6, 0, 8, 1⟩ + glitchFh cGrad10 ⟨6, 0, 8, 1⟩) ∧
     (Box.mk 6 0 8 1).x = ((6 : ℤ) : ℚ) ∧ (Box.mk 6 0 8 1).y = ((0 : ℤ) : ℚ) ∧
     (Box.mk 6 0 8 1).width = ((8 : ℤ) : ℚ) ∧
     (Box.mk 6 0 8 1).height = ((1 : ℤ) : ℚ) ∧
     (0 : ℤ) ≤ 6 ∧ (0 : ℤ) ≤ 0) ∧
    (getPixel (applyGlitch cGrad10 cGrad10 ⟨6, 0, 8, 1⟩ 60 []).1 0 0 =
       getPixel cGrad10 0 0 ∧
     (glitchFw cGrad10 ⟨6, 0, 8, 1⟩ ≤ 0 ∨ glitchFh cGrad10 ⟨6, 0, 8, 1⟩ ≤ 0 →
       applyGlitch cGrad10 cGrad10 ⟨6, 0, 8, 1⟩ 60 [] = (cGrad10, [])) ∧
     (glitchFx ⟨6, 0, 8, 1⟩ = 6 ∧ glitchFy ⟨6, 0, 8, 1⟩ = 0 ∧
      glitchFw cGrad10 ⟨6, 0, 8, 1⟩ = min 8 ((cGrad10.width : ℤ) - 6) ∧
      glitchFh cGrad10 ⟨6, 0, 8, 1⟩ = min 1 ((cGrad10.height : ℤ) - 0))) :=
  ⟨⟨by with_unfolding_all decide, by with_unfolding_all decide,
    by norm_num, by norm_num, by norm_num, by norm_num, by norm_num,
    by norm_num⟩,
   glitch_clamped_region cGrad10 cGrad10 ⟨6, 0, 8, 1⟩ 60 [] 0 0 6 0 8 1
     (by with_unfolding_all decide) (by with_unfolding_all decide)
     (by norm_num) (by norm_num) (by norm_num) (by norm_num)
     (by norm_num) (by norm_num)⟩

/-- Counterexample for C8 as frozen: for the box `⟨-20, 0, 10, 1⟩` on a 10×1
canvas the intersection of the box with the canvas is empty (the box ends at
x = −10 ≤ 0), yet with an all-zero random stream the glitch writes to pixel
(5,0) — the code clamps only the origin to 0 and keeps the full rounded
width, so reads/writes are not confined to the intersection and the empty
intersection is not a no-op. -/
theorem glitch_negative_origin_not_noop :
    getPixel (applyGlitch cGrad10 cGrad10 ⟨-20, 0, 10, 1⟩ 100 []).1 5 0 ≠
      getPixel cGrad10 5 0 ∧
    (Box.mk (-20) 0 10 1).x + (Box.mk (-20) 0 10 1).width ≤ 0 :=
  ⟨of_decide_eq_false (by with_unfolding_all rfl), by norm_num⟩

theorem applyEffect_blur (env : Env) (c src : Canvas) (box : Box)
    (intensity : ℚ) (lm : Option Landmarks) (opts : EffOptions) (r : RStream) :
    applyEffect env c src box "blur" intensity lm opts r =
      (applyBlur env c src box intensity, r) := by
  unfold applyEffect
  rw [if_pos rfl]

theorem applyEffect_pixelate (env : Env) (c src : Canvas) (box : Box)
    (intensity : ℚ) (lm : Option Landmarks) (opts : EffOptions) (r : RStream) :
    applyEffect env c src box "pixelate" intensity lm opts r =
      (applyPixelate env c src box intensity, r) := by
  unfold applyEffect
  rw [if_neg (by decide), if_pos rfl]

theorem applyEffect_blackBar (env : Env) (c src : Canvas) (box : Box)
    (intensity : ℚ) (lm : Option Landmarks) (opts : EffOptions) (r : RStream) :
    applyEffect env c src box "black-bar-eyes" intensity lm opts r =
      (applyBlackBarEyes c box intensity lm, r) := by
  unfold applyEffect
  rw [if_neg (by decide), if_neg (by decide), if_pos rfl]

theorem applyEffect_blackout (env : Env) (c src : Canvas) (box : Box)
    (intensity : ℚ) (lm : Option Landmarks) (opts : EffOptions) (r : RStream) :
    applyEffect env c src box "blackout" intensity lm opts r =
      (applyBlackout c box, r) := by
  unfold applyEffect
  rw [if_neg (by decide), if_neg (by decide), if_neg (by decide), if_pos rfl]

theorem applyEffect_solidColor (env : Env) (c src : Canvas) (box : Box)
    (intensity : ℚ) (lm : Option Landmarks) (opts : EffOptions) (r : RStream) :
    applyEffect env c src box "solid-color" intensity lm opts r =
      (applySolidColor c box opts.color, r) := by
  unfold applyEffect
  rw [if_neg (by decide), if_neg (by decide), if_neg (by decide),
    if_neg (by decide), if_neg (by decide), if_pos rfl]

theorem applyEffect_silhouette (env : Env) (c src : Canvas) (box : Box)
    (intensity : ℚ) (lm : Option Landmarks) (opts : EffOptions) (r : RStream) :
    applyEffect env c src box "silhouette" intensity lm opts r =
      (applySilhouette env c box intensity lm, r) := by
  unfold applyEffect
  rw [if_neg (by decide), if_neg (by decide), if_neg (by decide),
    if_neg (by decide), if_neg (by decide), if_neg (by decide),
    if_neg (by decide), if_neg (by decide), if_pos rfl]

/-- Outside the box expanded by 10% of its dimensions, a centred ellipse
region with radii bounded by half-dimension + 10% does not cover the pixel
centre. -/
theorem ellipseB_eq_false_outside (box : Box) (rx ry : ℚ) (i j : ℕ)
    (hrx : 0 < rx) (hry : 0 < ry)
    (hrxb : rx ≤ box.width/2 + box.width/10)
    (hryb : ry ≤ box.height/2 + box.height/10)
    (hout : ¬ inClosedRect (box.x - box.width/10)
      (box.x + box.width + box.width/10) (box.y - box.height/10)
      (box.y + box.height + box.height/10) ((i : ℚ) + 1/2) ((j : ℚ) + 1/2)) :
    ellipseB (box.x + box.width/2) (box.y + box.height/2) rx ry i j = false := by
  apply decide_eq_false
  intro hmem
  obtain ⟨b1, b2, b3, b4⟩ := ellipse_mem_bounds hmem hrx hry
  exact hout ⟨by linarith, by linarith, by linarith, by linarith⟩

/-- Claim C3 (amended): for the ellipse-clipped effects — blur, pixelate,
blackout, solid-color — and for the eye-bar and silhouette effects on a
region without landmarks, no pixel outside the face box expanded by 10% of
its dimensions is modified (blur pads its clip by at most 5% of the smaller
dimension, capped at 20 px; pixelate clips to the inscribed ellipse;
blackout/solid-color use 1.05× radii; silhouette's fallback uses 1.05×/1.15×
radii; the fallback eye bar stays inside the box). Redact (fixed ±4 px pad
plus speckles), emoji (glyph up to 1.4× the larger dimension), glitch/swirl
on negative-origin boxes, and the landmark-driven paths are excluded: each
can write beyond the 10% bound. -/
theorem effects_region_containment (env : Env) (c src : Canvas) (box : Box)
    (eid : String) (intensity : ℚ) (lm : Option Landmarks)
    (opts : EffOptions) (r : RStream) (i j : ℕ)
    (hw : 0 < box.width) (hh : 0 < box.height)
    (h0 : 0 ≤ intensity) (h1 : intensity ≤ 100) (hiw : i < c.width)
    (heid : eid = "blur" ∨ eid = "pixelate" ∨ eid = "blackout" ∨
      eid = "solid-color" ∨
      (lm = none ∧ (eid = "black-bar-eyes" ∨ eid = "silhouette")))
    (hout : ¬ inClosedRect (box.x - box.width/10)
      (box.x + box.width + box.width/10) (box.y - box.height/10)
      (box.y + box.height + box.height/10) ((i : ℚ) + 1/2) ((j : ℚ) + 1/2)) :
    getPixel (applyEffect env c src box eid intensity lm opts r).1 i j =
      getPixel c i j := by
  have hpxl : ∀ intensity', getPixel (applyPixelate env c src box intensity')
      i j = getPixel c i j := by
    intro intensity'
    apply getPixel_mapPixelsWhere _ _ _ _ _ hiw
    rw [Bool.and_eq_false_iff]
    left
    exact ellipseB_eq_false_outside box _ _ i j (by linarith) (by linarith)
      (by linarith) (by linarith) hout
  rcases heid with h | h | h | h | ⟨hlm, h | h⟩ <;> subst h
  · -- blur
    rw [applyEffect_blur]
    unfold applyBlur
    by_cases hf : env.filterSupported
    · rw [if_pos hf]
      apply getPixel_mapPixelsWhere _ _ _ _ _ hiw
      rw [Bool.and_eq_false_iff]
      left
      have hpad0 : 0 < min (min box.width box.height * (5/100)) 20 := by
        apply lt_min
        · have := min_le_left box.width box.height
          have := min_le_right box.width box.height
          nlinarith [lt_min hw hh]
        · norm_num
      have hpadw : min (min box.width box.height * (5/100)) 20 ≤
          box.width / 10 := by
        have h2 : min box.width box.height * (5/100) ≤
            box.width * (5/100) := by
          have := min_le_left box.width box.height
          nlinarith
        have := min_le_left (min box.width box.height * (5/100)) (20 : ℚ)
        linarith
      have hpadh : min (min box.width box.height * (5/100)) 20 ≤
          box.height / 10 := by
        have h2 : min box.width box.height * (5/100) ≤
            box.height * (5/100) := by
          have := min_le_right box.width box.height
          nlinarith
        have := min_le_left (min box.width box.height * (5/100)) (20 : ℚ)
        linarith
      exact ellipseB_eq_false_outside box _ _ i j (by linarith) (by linarith)
        (by linarith) (by linarith) hout
    · rw [if_neg hf]
      exact hpxl _
  · -- pixelate
    rw [applyEffect_pixelate]
    exact hpxl _
  · -- blackout
    rw [applyEffect_blackout]
    apply getPixel_mapPixelsWhere _ _ _ _ _ hiw
    exact ellipseB_eq_false_outside box _ _ i j (by linarith) (by linarith)
      (by linarith) (by linarith) hout
  · -- solid-color
    rw [applyEffect_solidColor]
    apply getPixel_mapPixelsWhere _ _ _ _ _ hiw
    exact ellipseB_eq_false_outside box _ _ i j (by linarith) (by linarith)
      (by linarith) (by linarith) hout
  · -- black-bar-eyes without landmarks
    subst hlm
    rw [applyEffect_blackBar]
    apply getPixel_mapPixelsWhere _ _ _ _ _ hiw
    apply decide_eq_false
    intro ⟨hx1, hx2, hy1, hy2⟩
    apply hout
    refine ⟨by linarith, by linarith, by linarith, ?_⟩
    have hmul : box.height * (16/100) * (1/2 + intensity / 100 * (3/2)) ≤
        box.height * (32/100) := by
      nlinarith [mul_nonneg hh.le (by linarith : (0:ℚ) ≤ 100 - intensity)]
    linarith
  · -- silhouette without landmarks
    subst hlm
    rw [applyEffect_silhouette]
    unfold applySilhouette
    apply getPixel_mapPixelsWhere _ _ _ _ _ hiw
    exact ellipseB_eq_false_outside box _ _ i j (by linarith) (by linarith)
      (by linarith) (by linarith) hout

/-- Witness for C3: blackout on a 2×2 box at (1,1); pixel (8,0) lies outside
the 10%-expanded box and is untouched. -/
theorem effects_region_containment_witness :
    ((0 : ℚ) < (Box.mk 1 1 2 2).width ∧ (0 : ℚ) < (Box.mk 1 1 2 2).height ∧
     (0 : ℚ) ≤ 70 ∧ (70 : ℚ) ≤ 100 ∧ (8 : ℕ) < cGrad10.width ∧
     ("blackout" = "blur" ∨ "blackout" = "pixelate" ∨
      "blackout" = "blackout" ∨ "blackout" = "solid-color" ∨
      ((none : Option Landmarks) = none ∧
       ("blackout" = "black-bar-eyes" ∨ "blackout" = "silhouette"))) ∧
     ¬ inClosedRect ((Box.mk 1 1 2 2).x - (Box.mk 1 1 2 2).width/10)
       ((Box.mk 1 1 2 2).x + (Box.mk 1 1 2 2).width +
         (Box.mk 1 1 2 2).width/10)
       ((Box.mk 1 1 2 2).y - (Box.mk 1 1 2 2).height/10)
       ((Box.mk 1 1 2 2).y + (Box.mk 1 1 2 2).height +
         (Box.mk 1 1 2 2).height/10) ((8 : ℚ) + 1/2) ((0 : ℚ) + 1/2)) ∧
    getPixel (applyEffect trivEnv cGrad10 cGrad10 ⟨1, 1, 2, 2⟩ "blackout" 70
      none optsNone []).1 8 0 = getPixel cGrad10 8 0 :=
  ⟨⟨by norm_num, by norm_num, by norm_num, by norm_num,
    by with_unfolding_all decide, Or.inr (Or.inr (Or.inl rfl)),
    by with_unfolding_all decide⟩,
   effects_region_containment trivEnv cGrad10 cGrad10 ⟨1, 1, 2, 2⟩ "blackout"
     70 none optsNone [] 8 0 (by norm_num) (by norm_num) (by norm_num)
     (by norm_num) (by with_unfolding_all decide)
     (Or.inr (Or.inr (Or.inl rfl))) (by with_unfolding_all decide)⟩

/-- Counterexample for C3 as frozen: redact on an 8×8 box at (2,2) paints
pixel (0,5) — its fixed ±4 px pad exceeds 10% of the box dimensions
(0.8 px), so the claimed universal containment bound fails. -/
theorem redact_writes_outside_ten_percent :
    getPixel (applyRedact cGrey16 ⟨2, 2, 8, 8⟩ []).1 0 5 ≠
      getPixel cGrey16 0 5 ∧
    ¬ inClosedRect ((2 : ℚ) - 8/10) (2 + 8 + 8/10) (2 - 8/10) (2 + 8 + 8/10)
      ((0 : ℚ) + 1/2) ((5 : ℚ) + 1/2) :=
  ⟨of_decide_eq_false (by with_unfolding_all rfl),
   by with_unfolding_all decide⟩

theorem any_of_findIdx_lt (q : Face → Bool) :
    ∀ l : List Face, l.findIdx q < l.length → l.any q = true := by
  intro l
  induction l with
  | nil => intro h; simp at h
  | cons f t ih =>
    intro h
    by_cases hq : q f
    · simp [hq]
    · rw [List.findIdx_cons] at h
      simp only [hq, cond_false, List.length_cons] at h
      simp only [List.any_cons, hq, Bool.false_or]
      exact ih (by omega)

/-- Claim C2 (amended): completing a move whose new box centre lies outside
the canvas removes the selected region (splice + deselect); with the centre
inside, the region is repositioned by the drag delta only when the drag
distance exceeds the 3 px tap threshold, and a shorter drag leaves the photo
unchanged. -/
theorem completeMove_gesture (p : Photo) (cw ch : ℚ) (origBox : Box)
    (fid : String) (sx sy ux uy : ℚ)
    (hsel : p.selectedFaceId = some fid)
    (hidx : p.faces.findIdx (fun f => f.id = fid) < p.faces.length) :
    (isOutsideCanvas cw ch (origBox.x + origBox.width / 2 + (ux - sx))
        (origBox.y + origBox.height / 2 + (uy - sy)) = true →
      completeMove p cw ch origBox fid sx sy ux uy =
        { pushUndo p with
            faces := p.faces.eraseIdx (p.faces.findIdx (fun f => f.id = fid)),
            selectedFaceId := none }) ∧
    (isOutsideCanvas cw ch (origBox.x + origBox.width / 2 + (ux - sx))
        (origBox.y + origBox.height / 2 + (uy - sy)) = false →
      9 < (ux - sx) ^ 2 + (uy - sy) ^ 2 →
      completeMove p cw ch origBox fid sx sy ux uy =
        { pushUndo p with
            faces := setBoxFirst p.faces fid
              ⟨origBox.x + (ux - sx), origBox.y + (uy - sy),
               origBox.width, origBox.height⟩ }) ∧
    (isOutsideCanvas cw ch (origBox.x + origBox.width / 2 + (ux - sx))
        (origBox.y + origBox.height / 2 + (uy - sy)) = false →
      (ux - sx) ^ 2 + (uy - sy) ^ 2 ≤ 9 →
      completeMove p cw ch origBox fid sx sy ux uy = p) := by
  refine ⟨?_, ?_, ?_⟩
  · intro hoc
    simp only [completeMove]
    rw [hoc]
    simp only [if_true]
    unfold handleFaceRemoved
    rw [hsel]
    simp only [if_pos hidx]
  · intro hoc hdist
    simp only [completeMove]
    rw [hoc]
    simp only [Bool.false_eq_true, if_false]
    rw [if_pos hdist]
    unfold handleFaceMoved
    rw [if_pos (any_of_findIdx_lt _ _ hidx)]
  · intro hoc hdist
    simp only [completeMove]
    rw [hoc]
    simp only [Bool.false_eq_true, if_false]
    rw [if_neg (not_lt.mpr hdist)]

/-- Witness for C2: dragging the selected 20×20 face at (10,10) left by 50 px
puts its centre at (−30, 20), outside the 100×100 canvas, and the region is
removed and deselected. -/
theorem completeMove_gesture_witness :
    (photoSel.selectedFaceId = some "f1" ∧
     photoSel.faces.findIdx (fun f => f.id = "f1") < photoSel.faces.length) ∧
    ((isOutsideCanvas 100 100
        ((Box.mk 10 10 20 20).x + (Box.mk 10 10 20 20).width / 2 +
          ((-30 : ℚ) - 20))
        ((Box.mk 10 10 20 20).y + (Box.mk 10 10 20 20).height / 2 +
          ((20 : ℚ) - 20)) = true →
      completeMove photoSel 100 100 ⟨10, 10, 20, 20⟩ "f1" 20 20 (-30) 20 =
        { pushUndo photoSel with
            faces := photoSel.faces.eraseIdx
              (photoSel.faces.findIdx (fun f => f.id = "f1")),
            selectedFaceId := none }) ∧
     (isOutsideCanvas 100 100
        ((Box.mk 10 10 20 20).x + (Box.mk 10 10 20 20).width / 2 +
          ((-30 : ℚ) - 20))
        ((Box.mk 10 10 20 20).y + (Box.mk 10 10 20 20).height / 2 +
          ((20 : ℚ) - 20)) = false →
      9 < ((-30 : ℚ) - 20) ^ 2 + ((20 : ℚ) - 20) ^ 2 →
      completeMove photoSel 100 100 ⟨10, 10, 20, 20⟩ "f1" 20 20 (-30) 20 =
        { pushUndo photoSel with
            faces := setBoxFirst photoSel.faces "f1"
              ⟨(Box.mk 10 10 20 20).x + ((-30 : ℚ) - 20),
               (Box.mk 10 10 20 20).y + ((20 : ℚ) - 20),
               (Box.mk 10 10 20 20).width, (Box.mk 10 10 20 20).height⟩ }) ∧
     (isOutsideCanvas 100 100
        ((Box.mk 10 10 20 20).x + (Box.mk 10 10 20 20).width / 2 +
          ((-30 : ℚ) - 20))
        ((Box.mk 10 10 20 20).y + (Box.mk 10 10 20 20).height / 2 +
          ((20 : ℚ) - 20)) = false →
      ((-30 : ℚ) - 20) ^ 2 + ((20 : ℚ) - 20) ^ 2 ≤ 9 →
      completeMove photoSel 100 100 ⟨10, 10, 20, 20⟩ "f1" 20 20 (-30) 20 =
        photoSel)) :=
  ⟨⟨by with_unfolding_all rfl, by with_unfolding_all decide⟩,
   completeMove_gesture photoSel 100 100 ⟨10, 10, 20, 20⟩ "f1" 20 20 (-30) 20
     (by with_unfolding_all rfl) (by with_unfolding_all decide)⟩

/-- Counterexample for C2 as frozen: a 1 px drag keeps the centre inside the
canvas, yet the region is not repositioned — the code ignores moves at or
under the 3 px tap threshold, while repositioning would have changed the
face list. -/
theorem completeMove_small_drag_not_repositioned :
    isOutsideCanvas 100 100 (10 + 20/2 + (21 - 20 : ℚ))
      (10 + 20/2 + (20 - 20 : ℚ)) = false ∧
    completeMove photoSel 100 100 ⟨10, 10, 20, 20⟩ "f1" 20 20 21 20 =
      photoSel ∧
    setBoxFirst photoSel.faces "f1" ⟨11, 10, 20, 20⟩ ≠ photoSel.faces :=
  ⟨by with_unfolding_all rfl, by with_unfolding_all rfl,
   of_decide_eq_false (by with_unfolding_all rfl)⟩

/-- Claim C10 (amended): a click on empty canvas space with nothing selected
pushes an undo snapshot and appends a manual region with score 1, no
landmarks, `manual = true` and no per-region overrides, in a square box of
side `s` centred on the click with its top-left clamped to ≥ 0; the new
region becomes selected. `s` is the element at index ⌊n/2⌋ of the
ascending-sorted larger box dimensions of the detected faces (the upper
median for even n), or 15% of the smaller canvas dimension when no detected
faces exist. -/
theorem canvas_click_adds_manual_region (p : Photo) (cw ch cx cy : ℚ)
    (newId : String)
    (hmiss : p.faces.find? (fun f =>
      decide (f.box.x ≤ cx ∧ cx ≤ f.box.x + f.box.width ∧
              f.box.y ≤ cy ∧ cy ≤ f.box.y + f.box.height)) = none)
    (hsel : p.selectedFaceId = none) :
    handleCanvasClick p cw ch cx cy newId =
      { pushUndo p with
          faces := p.faces ++
            [⟨newId,
              ⟨max 0 (cx - getDefaultFaceSize p.faces cw ch / 2),
               max 0 (cy - getDefaultFaceSize p.faces cw ch / 2),
               getDefaultFaceSize p.faces cw ch,
               getDefaultFaceSize p.faces cw ch⟩,
              1, none, true, none, none, none⟩],
          selectedFaceId := some newId } ∧
    (p.faces.filter (fun f => !f.manual) = [] →
      getDefaultFaceSize p.faces cw ch = min cw ch * (15/100)) ∧
    (p.faces.filter (fun f => !f.manual) ≠ [] →
      getDefaultFaceSize p.faces cw ch =
        (detectedSizes p.faces).getD ((detectedSizes p.faces).length / 2) 0) := by
  refine ⟨?_, ?_, ?_⟩
  · unfold handleCanvasClick
    rw [hmiss, hsel]
  · intro hdet
    unfold getDefaultFaceSize
    rw [hdet]
    simp
  · intro hdet
    unfold getDefaultFaceSize
    rw [if_neg (by simpa using hdet)]

/-- Witness for C10 on a photo with two detected faces and a miss click at
(50,50). -/
theorem canvas_click_adds_manual_region_witness :
    (photoTwoDet.faces.find? (fun f =>
       decide (f.box.x ≤ 50 ∧ (50 : ℚ) ≤ f.box.x + f.box.width ∧
               f.box.y ≤ 50 ∧ (50 : ℚ) ≤ f.box.y + f.box.height)) = none ∧
     photoTwoDet.selectedFaceId = none) ∧
    (handleCanvasClick photoTwoDet 100 100 50 50 "m1" =
      { pushUndo photoTwoDet with
          faces := photoTwoDet.faces ++
            [⟨"m1",
              ⟨max 0 (50 - getDefaultFaceSize photoTwoDet.faces 100 100 / 2),
               max 0 (50 - getDefaultFaceSize photoTwoDet.faces 100 100 / 2),
               getDefaultFaceSize photoTwoDet.faces 100 100,
               getDefaultFaceSize photoTwoDet.faces 100 100⟩,
              1, none, true, none, none, none⟩],
          selectedFaceId := some "m1" } ∧
     (photoTwoDet.faces.filter (fun f => !f.manual) = [] →
       getDefaultFaceSize photoTwoDet.faces 100 100 =
         min (100 : ℚ) 100 * (15/100)) ∧
     (photoTwoDet.faces.filter (fun f => !f.manual) ≠ [] →
       getDefaultFaceSize photoTwoDet.faces 100 100 =
         (detectedSizes photoTwoDet.faces).getD
           ((detectedSizes photoTwoDet.faces).length / 2) 0)) :=
  ⟨⟨by with_unfolding_all rfl, rfl⟩,
   canvas_click_adds_manual_region photoTwoDet 100 100 50 50 "m1"
     (by with_unfolding_all rfl) rfl⟩

/-- Counterexample for C10 as frozen: with detected larger dimensions
{10, 20} the code picks `sorted[⌊2/2⌋] = 20`, not the arithmetic median 15,
so the created square's side is 20. -/
theorem manual_region_size_not_arith_median :
    ((handleCanvasClick photoTwoDet 100 100 50 50 "m1").faces.getD 2
      faceDummy).box.width = 20 ∧
    ((10 : ℚ) + 20) / 2 = 15 ∧
    ((handleCanvasClick photoTwoDet 100 100 50 50 "m1").faces.getD 2
      faceDummy).box.width ≠ ((10 : ℚ) + 20) / 2 :=
  ⟨by with_unfolding_all rfl, by norm_num,
   of_decide_eq_false (by with_unfolding_all rfl)⟩

theorem countP_le_add_of_imp (q q1 q2 : QPhoto → Bool) :
    ∀ l : List QPhoto, (∀ a ∈ l, q a = true → q1 a = true ∨ q2 a = true) →
    l.countP q ≤ l.countP q1 + l.countP q2 := by
  intro l
  induction l with
  | nil => intro _; simp
  | cons a t ih =>
    intro h
    have ht := ih (fun b hb => h b (List.mem_cons_of_mem _ hb))
    by_cases hq : q a = true
    · rcases h a (List.mem_cons_self a t) hq with h1 | h2
      · simp [List.countP_cons, hq, h1]; omega
      · simp [List.countP_cons, hq, h2]; omega
    · simp only [List.countP_cons]
      simp only [Bool.not_eq_true] at hq
      simp [hq]
      omega

theorem countP_active_le_one (a : Option String) :
    ∀ l : List QPhoto, (l.map (·.id)).Nodup →
    l.countP (fun p => decide (a = some p.id)) ≤ 1 := by
  intro l
  induction l with
  | nil => intro _; simp
  | cons p t ih =>
    intro hnd
    rw [List.map_cons, List.nodup_cons] at hnd
    rw [List.countP_cons]
    by_cases hp : a = some p.id
    · have hzero : t.countP (fun q => decide (a = some q.id)) = 0 := by
        rw [List.countP_eq_zero]
        intro q hq
        simp only [decide_eq_true_eq]
        intro hcontra
        have hid : p.id = q.id := Option.some.inj (hp.symm.trans hcontra)
        have hmem : p.id ∈ t.map (fun x => x.id) := by
          rw [hid]
          exact List.mem_map_of_mem _ hq
        exact hnd.1 hmem
      rw [hzero]
      simp [hp]
    · have hle := ih hnd.2
      simp only [decide_eq_true_eq]
      rw [if_neg hp]
      omega

theorem getD_map_qphoto (f : QPhoto → QPhoto) :
    ∀ (l : List QPhoto) (i : ℕ), i < l.length →
    (l.map f).getD i qDummy = f (l.getD i qDummy) := by
  intro l
  induction l with
  | nil => intro i h; simp at h
  | cons p t ih =>
    intro i h
    cases i with
    | zero => simp
    | succ i => simpa using ih i (by simpa using h)

theorem countP_ext_qphoto (p q : QPhoto → Bool) :
    ∀ l : List QPhoto, (∀ a ∈ l, p a = q a) → l.countP p = l.countP q := by
  intro l
  induction l with
  | nil => intro _; simp
  | cons a t ih =>
    intro h
    rw [List.countP_cons, List.countP_cons,
      ih (fun b hb => h b (List.mem_cons_of_mem _ hb)),
      h a (List.mem_cons_self a t)]

theorem toEvict_inactive (s : QState) (q : QPhoto) (hq : q ∈ toEvict s) :
    q.hasCanvas = true ∧ decide (s.activePhotoId = some q.id) = false := by
  have hmem : q ∈ loadedInactive s := List.take_subset _ _ hq
  unfold loadedInactive at hmem
  rw [List.mem_filter] at hmem
  have h2 := hmem.2
  rw [Bool.and_eq_true] at h2
  refine ⟨h2.1, ?_⟩
  simpa using h2.2

theorem evict_count_le (s : QState)
    (hids : (s.photos.map (·.id)).Nodup) :
    (evictCanvases s).photos.countP (·.hasCanvas) ≤ MAX_LOADED_CANVASES := by
  have hact := countP_active_le_one s.activePhotoId s.photos hids
  unfold evictCanvases
  by_cases hbr : maxInactive < (loadedInactive s).length
  · rw [if_pos hbr]
    simp only
    rw [List.countP_map]
    have hstep1 : s.photos.countP
        ((fun p => p.hasCanvas) ∘ (fun p =>
          if (toEvict s).any (fun q => q.id = p.id) then
            { p with hasCanvas := false } else p)) =
        s.photos.countP (fun p => p.hasCanvas &&
          !((toEvict s).any (fun q => q.id = p.id))) := by
      apply countP_ext_qphoto
      intro a _
      by_cases hev : (toEvict s).any (fun q => q.id = a.id)
      · simp [Function.comp, hev]
      · simp [Function.comp, hev]
    rw [hstep1]
    have hsplit := countP_le_add_of_imp
      (fun p => p.hasCanvas && !((toEvict s).any (fun q => q.id = p.id)))
      (fun p => decide (s.activePhotoId = some p.id))
      (fun p => (p.hasCanvas && !(s.activePhotoId = some p.id : Bool)) &&
        !((toEvict s).any (fun q => q.id = p.id)))
      s.photos ?_
    · have hinact : s.photos.countP
          (fun p => (p.hasCanvas && !(s.activePhotoId = some p.id : Bool)) &&
            !((toEvict s).any (fun q => q.id = p.id))) ≤ 2 := by
        have hcomm : s.photos.countP
            (fun p => (p.hasCanvas && !(s.activePhotoId = some p.id : Bool)) &&
              !((toEvict s).any (fun q => q.id = p.id))) =
            s.photos.countP
            (fun p => (!((toEvict s).any (fun q => q.id = p.id))) &&
              (p.hasCanvas && !(s.activePhotoId = some p.id : Bool))) := by
          apply countP_ext_qphoto
          intro a _
          exact Bool.and_comm _ _
        rw [hcomm, ← List.countP_filter]
        have hLsplit : loadedInactive s =
            toEvict s ++ (loadedInactive s).drop
              ((loadedInactive s).length - maxInactive) := by
          unfold toEvict
          rw [List.take_append_drop]
        show (loadedInactive s).countP
          (fun p => !((toEvict s).any (fun q => q.id = p.id))) ≤ 2
        rw [hLsplit, List.countP_append]
        have hT : (toEvict s).countP
            (fun p => !((toEvict s).any (fun q => q.id = p.id))) = 0 := by
          rw [List.countP_eq_zero]
          intro a ha
          have : (toEvict s).any (fun q => q.id = a.id) = true :=
            List.any_eq_true.mpr ⟨a, ha, by simp⟩
          simp [this]
        have hD : ((loadedInactive s).drop
            ((loadedInactive s).length - maxInactive)).countP
            (fun p => !((toEvict s).any (fun q => q.id = p.id))) ≤
            ((loadedInactive s).drop
              ((loadedInactive s).length - maxInactive)).length :=
          List.countP_le_length _
        rw [List.length_drop] at hD
        have hmi : maxInactive = 2 := rfl
        omega
      have hmlc : MAX_LOADED_CANVASES = 3 := rfl
      omega
    · intro a _ ha
      by_cases hac : decide (s.activePhotoId = some a.id) = true
      · exact Or.inl hac
      · refine Or.inr ?_
        rw [Bool.and_eq_true] at ha
        rw [Bool.and_eq_true, Bool.and_eq_true]
        refine ⟨⟨ha.1, ?_⟩, ha.2⟩
        simpa using hac
  · rw [if_neg hbr]
    have hsplit := countP_le_add_of_imp
      (fun p => p.hasCanvas)
      (fun p => decide (s.activePhotoId = some p.id))
      (fun p => p.hasCanvas && !(s.activePhotoId = some p.id : Bool))
      s.photos ?_
    · have hinact : s.photos.countP
          (fun p => p.hasCanvas && !(s.activePhotoId = some p.id : Bool)) =
          (loadedInactive s).length := by
        unfold loadedInactive
        rw [List.countP_eq_length_filter]
      have hmi : maxInactive = 2 := rfl
      have hmlc : MAX_LOADED_CANVASES = 3 := rfl
      omega
    · intro a _ ha
      by_cases hac : decide (s.activePhotoId = some a.id) = true
      · exact Or.inl hac
      · refine Or.inr ?_
        rw [Bool.and_eq_true]
        refine ⟨ha, ?_⟩
        simpa using hac

/-- Claim C4 (amended): after `evictCanvases`, at most `MAX_LOADED_CANVASES`
photos hold a surface (given distinct photo ids), the photo list keeps its
length and order, every photo keeps its id, status (so evicted photos stay
'detected') and ghost recency field, the active photo is never touched, and
a photo loses its surface exactly when it belongs to `toEvict` — the
earliest photos in *list (insertion) order* among the inactive loaded ones.
The code never consults activation recency, so the evicted photos are the
earliest-inserted, not the least-recently-active. -/
theorem evict_cap_active_status (s : QState) (i : ℕ)
    (hids : (s.photos.map (·.id)).Nodup) (hilen : i < s.photos.length) :
    (evictCanvases s).photos.countP (·.hasCanvas) ≤ MAX_LOADED_CANVASES ∧
    (evictCanvases s).photos.length = s.photos.length ∧
    ((evictCanvases s).photos.getD i qDummy).id =
      (s.photos.getD i qDummy).id ∧
    ((evictCanvases s).photos.getD i qDummy).status =
      (s.photos.getD i qDummy).status ∧
    ((evictCanvases s).photos.getD i qDummy).lastActiveAt =
      (s.photos.getD i qDummy).lastActiveAt ∧
    (s.activePhotoId = some (s.photos.getD i qDummy).id →
      (evictCanvases s).photos.getD i qDummy = s.photos.getD i qDummy) ∧
    ((evictCanvases s).photos.getD i qDummy).hasCanvas =
      ((s.photos.getD i qDummy).hasCanvas &&
       !((toEvict s).any (fun q => q.id = (s.photos.getD i qDummy).id))) := by
  refine ⟨evict_count_le s hids, ?_⟩
  unfold evictCanvases
  by_cases hbr : maxInactive < (loadedInactive s).length
  · rw [if_pos hbr]
    simp only [List.length_map]
    rw [getD_map_qphoto _ _ _ hilen]
    set p := s.photos.getD i qDummy with hp
    refine ⟨trivial, ?_, ?_, ?_, ?_, ?_⟩
    · by_cases hev : (toEvict s).any (fun q => q.id = p.id) <;> simp [hev]
    · by_cases hev : (toEvict s).any (fun q => q.id = p.id) <;> simp [hev]
    · by_cases hev : (toEvict s).any (fun q => q.id = p.id) <;> simp [hev]
    · intro hactive
      have hev : (toEvict s).any (fun q => q.id = p.id) = false := by
        rw [Bool.eq_false_iff]
        intro hany
        obtain ⟨q, hq, hqid⟩ := List.any_eq_true.mp hany
        have hqinact := (toEvict_inactive s q hq).2
        rw [decide_eq_true_eq] at hqid
        rw [decide_eq_false_iff_not] at hqinact
        exact hqinact (by rw [hqid]; exact hactive)
      simp [hev]
    · by_cases hev : (toEvict s).any (fun q => q.id = p.id) <;> simp [hev]
  · rw [if_neg hbr]
    have hte : toEvict s = [] := by
      unfold toEvict
      have : (loadedInactive s).length - maxInactive = 0 := by omega
      rw [this, List.take_zero]
    refine ⟨rfl, rfl, rfl, rfl, fun _ => rfl, ?_⟩
    rw [hte]
    simp

/-- Witness for C4 on the four-photo fixture (active p4, all loaded). -/
theorem evict_cap_active_status_witness :
    ((stateEvict.photos.map (·.id)).Nodup ∧
     (0 : ℕ) < stateEvict.photos.length) ∧
    ((evictCanvases stateEvict).photos.countP (·.hasCanvas) ≤
       MAX_LOADED_CANVASES ∧
     (evictCanvases stateEvict).photos.length = stateEvict.photos.length ∧
     ((evictCanvases stateEvict).photos.getD 0 qDummy).id =
       (stateEvict.photos.getD 0 qDummy).id ∧
     ((evictCanvases stateEvict).photos.getD 0 qDummy).status =
       (stateEvict.photos.getD 0 qDummy).status ∧
     ((evictCanvases stateEvict).photos.getD 0 qDummy).lastActiveAt =
       (stateEvict.photos.getD 0 qDummy).lastActiveAt ∧
     (stateEvict.activePhotoId =
         some (stateEvict.photos.getD 0 qDummy).id →
       (evictCanvases stateEvict).photos.getD 0 qDummy =
         stateEvict.photos.getD 0 qDummy) ∧
     ((evictCanvases stateEvict).photos.getD 0 qDummy).hasCanvas =
       ((stateEvict.photos.getD 0 qDummy).hasCanvas &&
        !((toEvict stateEvict).any (fun q =>
           q.id = (stateEvict.photos.getD 0 qDummy).id)))) :=
  ⟨⟨by with_unfolding_all decide, by with_unfolding_all decide⟩,
   evict_cap_active_status stateEvict 0 (by with_unfolding_all decide)
     (by with_unfolding_all decide)⟩

/-- Counterexample for C4 as frozen: with activation recency p2 < p3 < p1
(ghost timestamps) and active p4, the code evicts p1 — the *most* recently
active inactive photo — while the least-recently-active p2 keeps its
surface, because eviction follows photo-list insertion order, not recency. -/
theorem evict_not_lru :
    ((evictCanvases stateEvict).photos.getD 0 qDummy).hasCanvas = false ∧
    ((evictCanvases stateEvict).photos.getD 1 qDummy).hasCanvas = true ∧
    (stateEvict.photos.getD 1 qDummy).lastActiveAt <
      (stateEvict.photos.getD 0 qDummy).lastActiveAt ∧
    stateEvict.activePhotoId ≠ some (stateEvict.photos.getD 1 qDummy).id ∧
    (stateEvict.photos.getD 1 qDummy).hasCanvas = true :=
  ⟨by with_unfolding_all rfl, by with_unfolding_all rfl,
   by with_unfolding_all decide, of_decide_eq_false (by with_unfolding_all rfl),
   by with_unfolding_all rfl⟩

theorem splitLast_concat (s : Snap) :
    ∀ A : List Snap, splitLast (A ++ [s]) = some (A, s) := by
  intro A
  induction A with
  | nil => rfl
  | cons a t ih =>
    cases t with
    | nil => simp [splitLast]
    | cons b u =>
      show (match splitLast (b :: (u ++ [s])) with
        | none => none
        | some (front, last) => some (a :: front, last)) =
        some (a :: b :: u, s)
      rw [List.cons_append] at ih
      rw [ih]

theorem undoFun_concat (p : Photo) (A : List Snap) (s : Snap)
    (h : p.undoStack = A ++ [s]) :
    undoFun p = ⟨s.faces, s.selectedFaceId, A,
      p.redoStack ++ [snapshotOf p]⟩ := by
  unfold undoFun
  rw [h, splitLast_concat]

theorem redo_undo_inverse (q : Photo) (h : q.undoStack ≠ []) :
    redoFun (undoFun q) = q := by
  obtain ⟨A, s, hA⟩ := (List.eq_nil_or_concat q.undoStack).resolve_left h
  rw [List.concat_eq_append] at hA
  cases q with
  | mk qf qs qu qr =>
    simp only at hA
    subst hA
    rw [undoFun_concat ⟨qf, qs, A ++ [s], qr⟩ A s rfl]
    unfold redoFun
    simp only
    rw [splitLast_concat]
    rfl

theorem capPush_len_le (u : List Snap) (s : Snap)
    (h : u.length ≤ MAX_UNDO) : (capPush u s).length ≤ MAX_UNDO := by
  unfold capPush
  by_cases hbig : MAX_UNDO < (u ++ [s]).length
  · rw [if_pos hbig, List.length_tail, List.length_append]
    simp only [List.length_singleton]
    omega
  · rw [if_neg hbig]
    omega

theorem applyOp_shape (op : MutOp) (p : Photo) (h : okOp op p = true) :
    ∃ fs sel, applyOp op p =
      ⟨fs, sel, capPush p.undoStack (snapshotOf p), []⟩ := by
  cases op with
  | draw f => exact ⟨_, _, rfl⟩
  | move fid b =>
    simp only [okOp] at h
    simp only [applyOp]
    unfold handleFaceMoved
    rw [if_pos h]
    exact ⟨_, _, rfl⟩
  | resize fid b =>
    simp only [okOp] at h
    simp only [applyOp]
    unfold handleFaceMoved
    rw [if_pos h]
    exact ⟨_, _, rfl⟩
  | remove =>
    simp only [okOp] at h
    simp only [applyOp]
    unfold handleFaceRemoved
    cases hsel : p.selectedFaceId with
    | none => rw [hsel] at h; simp at h
    | some sid =>
      rw [hsel] at h
      simp only [decide_eq_true_eq] at h
      simp only
      rw [if_pos h]
      exact ⟨_, _, rfl⟩

theorem undo_aux :
    ∀ (ops : List MutOp) (p : Photo), okSeqB ops p = true →
    ops.length ≤ MAX_UNDO → p.undoStack.length ≤ MAX_UNDO →
    (undoIter ops.length (applyOps ops p)).faces = p.faces ∧
    (undoIter ops.length (applyOps ops p)).selectedFaceId =
      p.selectedFaceId ∧
    (undoIter ops.length (applyOps ops p)).undoStack =
      p.undoStack.drop (p.undoStack.length + ops.length - MAX_UNDO) := by
  intro ops
  induction ops with
  | nil =>
    intro p _ _ hcap
    have hM : MAX_UNDO = 50 := rfl
    refine ⟨rfl, rfl, ?_⟩
    have hz : p.undoStack.length + ([] : List MutOp).length - MAX_UNDO = 0 := by
      simp only [List.length_nil]
      omega
    rw [hz, List.drop_zero]
    rfl
  | cons op t ih =>
    intro p hok hlen hcap
    have hM : MAX_UNDO = 50 := rfl
    simp only [okSeqB] at hok
    rw [Bool.and_eq_true] at hok
    obtain ⟨fs, sel, hshape⟩ := applyOp_shape op p hok.1
    have hcap1 : (applyOp op p).undoStack.length ≤ MAX_UNDO := by
      rw [hshape]
      exact capPush_len_le _ _ hcap
    have hlen1 : t.length ≤ MAX_UNDO := by
      simp only [List.length_cons] at hlen
      omega
    have htlen : t.length ≤ 49 := by
      simp only [List.length_cons] at hlen
      omega
    obtain ⟨_, _, ihu⟩ := ih (applyOp op p) hok.2 hlen1 hcap1
    set q := undoIter t.length (applyOps t (applyOp op p)) with hqdef
    have ihu2 : q.undoStack = (capPush p.undoStack (snapshotOf p)).drop
        ((capPush p.undoStack (snapshotOf p)).length + t.length -
          MAX_UNDO) := by
      rw [hshape] at ihu
      exact ihu
    show (undoFun q).faces = p.faces ∧
      (undoFun q).selectedFaceId = p.selectedFaceId ∧
      (undoFun q).undoStack =
        p.undoStack.drop (p.undoStack.length + (t.length + 1) - MAX_UNDO)
    by_cases hL : p.undoStack.length = MAX_UNDO
    · obtain ⟨a, u', hu⟩ : ∃ a u', p.undoStack = a :: u' := by
        cases hck : p.undoStack with
        | nil => rw [hck] at hL; simp at hL; omega
        | cons a u' => exact ⟨a, u', rfl⟩
      have hu' : u'.length = 49 := by
        rw [hu] at hL
        simp only [List.length_cons] at hL
        omega
      have hcp : capPush p.undoStack (snapshotOf p) =
          u' ++ [snapshotOf p] := by
        unfold capPush
        rw [hu]
        rw [if_pos (by simp [List.length_append]; omega)]
        rfl
      rw [hcp] at ihu2
      have hlcp : (u' ++ [snapshotOf p]).length = 50 := by
        simp [List.length_append, hu']
      rw [hlcp] at ihu2
      have hk : 50 + t.length - MAX_UNDO = t.length := by omega
      rw [hk] at ihu2
      have hdrop : (u' ++ [snapshotOf p]).drop t.length =
          u'.drop t.length ++ [snapshotOf p] := by
        rw [List.drop_append_eq_append_drop]
        have hz : t.length - u'.length = 0 := by omega
        rw [hz, List.drop_zero]
      rw [hdrop] at ihu2
      rw [undoFun_concat q _ _ ihu2]
      refine ⟨rfl, rfl, ?_⟩
      rw [hu]
      have hidx : (a :: u').length + (t.length + 1) - MAX_UNDO =
          t.length + 1 := by
        simp only [List.length_cons]
        omega
      rw [hidx, List.drop_succ_cons]
    · have hL' : p.undoStack.length < MAX_UNDO := lt_of_le_of_ne hcap hL
      have hcp : capPush p.undoStack (snapshotOf p) =
          p.undoStack ++ [snapshotOf p] := by
        unfold capPush
        rw [if_neg (by simp [List.length_append]; omega)]
      rw [hcp] at ihu2
      have hlcp : (p.undoStack ++ [snapshotOf p]).length =
          p.undoStack.length + 1 := by
        simp
      rw [hlcp] at ihu2
      have hdrop : (p.undoStack ++ [snapshotOf p]).drop
          (p.undoStack.length + 1 + t.length - MAX_UNDO) =
          p.undoStack.drop (p.undoStack.length + 1 + t.length - MAX_UNDO) ++
            [snapshotOf p] := by
        rw [List.drop_append_eq_append_drop]
        have hz : p.undoStack.length + 1 + t.length - MAX_UNDO -
            p.undoStack.length = 0 := by omega
        rw [hz, List.drop_zero]
      rw [hdrop] at ihu2
      rw [undoFun_concat q _ _ ihu2]
      refine ⟨rfl, rfl, ?_⟩
      have hidx : p.undoStack.length + (t.length + 1) - MAX_UNDO =
          p.undoStack.length + 1 + t.length - MAX_UNDO := by omega
      rw [hidx]

/-- Claim C6 (amended): for any sequence of at most `MAX_UNDO` (50)
effectively-mutating operations on a photo whose undo stack is within the
cap, performing as many undos restores the face list and selected-face id to
their pre-mutation values (value equality is the only notion in this
embedding; the JS snapshots are deep copies); and on any photo with a
nonempty undo stack, a redo right after an undo restores the full state
exactly. Beyond 50 operations the capped stack drops the oldest snapshots
and the round trip fails. -/
theorem undo_redo_roundtrip (ops : List MutOp) (p q : Photo)
    (hok : okSeqB ops p = true) (hlen : ops.length ≤ MAX_UNDO)
    (hcap : p.undoStack.length ≤ MAX_UNDO) (hq : q.undoStack ≠ []) :
    ((undoIter ops.length (applyOps ops p)).faces = p.faces ∧
     (undoIter ops.length (applyOps ops p)).selectedFaceId =
       p.selectedFaceId) ∧
    redoFun (undoFun q) = q :=
  ⟨⟨(undo_aux ops p hok hlen hcap).1, (undo_aux ops p hok hlen hcap).2.1⟩,
   redo_undo_inverse q hq⟩

/-- Witness for C6: one draw on an empty photo, one undo; and a
one-snapshot photo for the redo-after-undo half. -/
theorem undo_redo_roundtrip_witness :
    (okSeqB [MutOp.draw faceTiny] photoEmpty = true ∧
     ([MutOp.draw faceTiny] : List MutOp).length ≤ MAX_UNDO ∧
     photoEmpty.undoStack.length ≤ MAX_UNDO ∧
     (Photo.mk [faceTiny] none [⟨[], none⟩] []).undoStack ≠ []) ∧
    (((undoIter ([MutOp.draw faceTiny] : List MutOp).length
        (applyOps [MutOp.draw faceTiny] photoEmpty)).faces =
          photoEmpty.faces ∧
      (undoIter ([MutOp.draw faceTiny] : List MutOp).length
        (applyOps [MutOp.draw faceTiny] photoEmpty)).selectedFaceId =
          photoEmpty.selectedFaceId) ∧
     redoFun (undoFun (Photo.mk [faceTiny] none [⟨[], none⟩] [])) =
       Photo.mk [faceTiny] none [⟨[], none⟩] []) :=
  ⟨⟨by with_unfolding_all rfl, by with_unfolding_all decide,
    by with_unfolding_all decide, by with_unfolding_all decide⟩,
   undo_redo_roundtrip [MutOp.draw faceTiny] photoEmpty
     (Photo.mk [faceTiny] none [⟨[], none⟩] [])
     (by with_unfolding_all rfl) (by with_unfolding_all decide)
     (by with_unfolding_all decide) (by with_unfolding_all decide)⟩

set_option maxRecDepth 4000 in
/-- Counterexample for C6 as frozen: 51 consecutive draws are all valid
mutating operations, yet 51 undos do not restore the original (empty) face
list — `MAX_UNDO = 50` makes `pushUndo` drop the oldest snapshot, so one
face is left over. -/
theorem undo_roundtrip_fails_beyond_cap :
    okSeqB (List.replicate 51 (MutOp.draw faceTiny)) photoEmpty = true ∧
    (List.replicate 51 (MutOp.draw faceTiny)).length = 51 ∧
    (undoIter 51 (applyOps (List.replicate 51 (MutOp.draw faceTiny))
      photoEmpty)).faces ≠ photoEmpty.faces :=
  ⟨by with_unfolding_all rfl, by with_unfolding_all rfl,
   of_decide_eq_false (by with_unfolding_all rfl)⟩
